import Mathlib

/-
Verification development for the card-battler turn engine
(src/unnamed/part_000 of the repository).

Embedding conventions, used throughout:
- JavaScript numbers are modelled as rationals (ℚ); the engine only ever
  performs +, -, *, /, floor, min/max and comparisons on them.
- Math.random() is modelled as an explicit stream of draws (a list of
  rationals in [0,1); an exhausted stream yields 1, i.e. every further
  roll fails and no dodge happens), threaded through every function that
  consumes randomness, in the exact order the source consumes draws.
- A JavaScript Map is modelled as an insertion-ordered list; `set` on an
  existing key updates the entry in place, `delete` removes it, iteration
  follows insertion order, exactly as JS Maps behave.
- Abilities are taken post-normalization (normalizeAbility in the source
  runs upfront and its output shape is what every modelled function
  consumes); `null`/absent optional sub-structures are `Option`.
- The side keys, always the strings "player"/"enemy" in the source, are
  the two-element inductive `Side`.
- Database lookups (saved games, campaign seeding, catalog fetches) and
  logging are outside the modelled core; the model receives the already
  normalized stats and piles that those steps produce.
-/

namespace CardGame

attribute [local semireducible] Rat.mul Rat.add Rat.sub Rat.inv

/-- Model of the source helper clamp(n, lo, hi) = Math.max(lo, Math.min(hi, n)). -/
def clamp (n lo hi : ℚ) : ℚ := max lo (min hi n)

/-- Model of Math.floor on the JS numbers we model as rationals. -/
def jsFloor (q : ℚ) : ℚ := (q.floor : ℚ)

/-- Stream of Math.random() draws. -/
abbrev Rng := List ℚ

/-- Consume one draw; an exhausted stream yields 1 (a draw no real
Math.random can produce, making every chance roll fail). -/
def Rng.next : Rng → ℚ × Rng
  | [] => (1, [])
  | x :: r => (x, r)

/-- Model of roll(chancePct): Math.random() * 100 < clamp(chancePct, 0, 100). -/
def roll (chancePct : ℚ) (rng : Rng) : Bool × Rng :=
  let (r, rng1) := rng.next
  (decide (r * 100 < clamp chancePct 0 100), rng1)

/-- Model of intMult: clamp(base + base * clamp(int/1000, 0, 1), 0, 100). -/
def intMult (baseChance intStat : ℚ) : ℚ :=
  let bonus := clamp (intStat / 1000) 0 1
  clamp (baseChance + baseChance * bonus) 0 100

/-- The two side keys that the source passes around as the strings
"player" and "enemy". -/
inductive Side
  | player
  | enemy
deriving DecidableEq, Repr

/-- Opposite side, as in mineKey/otherKey in the source. -/
def Side.other : Side → Side
  | .player => .enemy
  | .enemy => .player

/-- Schedule sub-structure of a normalized multiHit / durabilityNegation:
either a fixed list of turns or a count of randomly sampled turns. -/
structure MHSchedule where
  stype : String
  times : ℚ
  turns : List ℚ
deriving DecidableEq, Repr

/-- Normalized multiHit block of an ability. -/
structure MultiHitSpec where
  turns : ℚ
  link : String
  overlap : String
  schedule : Option MHSchedule
  targetingMode : Option String
  targetingScope : Option String
deriving DecidableEq, Repr

/-- Normalized durabilityNegation block of an ability (defaults to
auto = true with no schedule). -/
structure DNSpec where
  auto : Bool
  schedule : Option MHSchedule
deriving DecidableEq, Repr

/-- Normalized ability, the output shape of normalizeAbility in the source. -/
structure Ability where
  type : String
  key : String
  power : ℚ
  duration : ℚ
  activationChance : ℚ
  precedence : ℚ
  linkedTo : List String
  legacyTargetCode : Option Int
  multiHit : Option MultiHitSpec
  durabilityNegation : DNSpec
deriving DecidableEq, Repr

/-- Runtime card snapshot (name, costs, types, abilities) as carried in
hands, decks and field entries. Abilities are stored normalized. -/
structure CardSnap where
  id : String
  instanceId : String
  name : String
  spCost : ℚ
  potency : ℚ
  defense : ℚ
  types : List String
  abilities : List Ability
deriving DecidableEq, Repr

/-- Model of getTypes(card): the normalized types list. -/
def getTypes (card : CardSnap) : List String := card.types

/-- Persistent ledger entry: type, optional target stat, power, precedence
and remaining turns. -/
structure PersistentEffect where
  type : String
  target : Option String
  power : ℚ
  precedence : ℚ
  remaining : ℚ
deriving DecidableEq, Repr

/-- Map key used by the source: type, or type:target when a target is set. -/
def effKey (t : String) (target : Option String) : String :=
  t ++ (match target with
    | some s => ":" ++ s
    | none => "")

/-- Key of a stored ledger entry. -/
def PersistentEffect.key (e : PersistentEffect) : String := effKey e.type e.target

/-- A per-side ledger bucket: a JS Map in the source, modelled as an
insertion-ordered list whose stored key always equals the entry key. -/
abbrev Bucket := List PersistentEffect

/-- Map get by key (first match; buckets keep keys unique). -/
def bucketGet (b : Bucket) (k : String) : Option PersistentEffect :=
  b.find? (fun e => e.key == k)

/-- Map has by key. -/
def bucketHas (b : Bucket) (k : String) : Bool :=
  (bucketGet b k).isSome

/-- Map delete by key (removes the unique entry holding the key). -/
def bucketDelete (b : Bucket) (k : String) : Bucket :=
  b.eraseP (fun e => e.key == k)

/-- Update the entry holding key k in place (JS mutates the stored object,
leaving its map position unchanged). -/
def bucketSetFirst : Bucket → String → (PersistentEffect → PersistentEffect) → Bucket
  | [], _, _ => []
  | e :: rest, k, f =>
    if e.key == k then f e :: rest else e :: bucketSetFirst rest k f

/-- An upsert activation: the fields of the pending ability that
upsertPersistentEffect reads (type, resolved target, power, precedence,
duration). -/
structure UpsertEntry where
  type : String
  target : Option String
  power : ℚ
  precedence : ℚ
  duration : ℚ
deriving DecidableEq, Repr

/-- Model of upsertPersistentEffect(bucketMap, entry): on an existing
(type, target) key the stored power is overwritten, the stored precedence
becomes the max of old and new, and remaining is reset to
max(entry.duration, 0); otherwise a fresh entry is inserted. -/
def upsertPersistentEffect (b : Bucket) (entry : UpsertEntry) : Bucket :=
  let k := effKey entry.type entry.target
  match bucketGet b k with
  | some _ =>
    bucketSetFirst b k (fun e =>
      { e with power := entry.power,
               precedence := max e.precedence entry.precedence,
               remaining := max entry.duration 0 })
  | none =>
    b ++ [{ type := entry.type, target := entry.target,
            power := entry.power, precedence := entry.precedence,
            remaining := max entry.duration 0 }]

/-- Model of loadActiveBuckets makeMap on one side: fold the echoed effect
list into a keyed bucket, skipping entries with no type and clamping
remaining at 0 (later duplicates of a key overwrite earlier ones, as
Map.set does). -/
def loadBucketSide (arr : List PersistentEffect) : Bucket :=
  arr.foldl (fun b e =>
    if e.type == "" then b
    else
      let v : PersistentEffect :=
        { type := e.type, target := e.target, power := e.power,
          precedence := e.precedence, remaining := max 0 e.remaining }
      match bucketGet b v.key with
      | some _ => bucketSetFirst b v.key (fun _ => v)
      | none => b ++ [v]) []

/-- Model of tickBuckets: every entry is decremented by one when its
remaining is positive, then entries at 0 or below are deleted. -/
def tickBuckets (b : Bucket) : Bucket :=
  b.filterMap (fun e =>
    let r := if e.remaining > 0 then e.remaining - 1 else e.remaining
    if r ≤ 0 then none else some { e with remaining := r })

/-- The two per-side buckets of the effect ledger. -/
structure Buckets where
  player : Bucket
  enemy : Bucket
deriving DecidableEq, Repr

/-- Bucket of one side. -/
def Buckets.get (b : Buckets) : Side → Bucket
  | .player => b.player
  | .enemy => b.enemy

/-- Replace the bucket of one side. -/
def Buckets.set (b : Buckets) : Side → Bucket → Buckets
  | .player, v => { b with player := v }
  | .enemy, v => { b with enemy := v }

/-- Numeric side stats. The source reads and writes them by field name;
hp and sp ride along in the same record. -/
structure Stats where
  attackPower : ℚ
  supernaturalPower : ℚ
  physicalPower : ℚ
  durability : ℚ
  vitality : ℚ
  intelligence : ℚ
  speed : ℚ
  sp : ℚ
  maxSp : ℚ
  hp : ℚ
deriving DecidableEq, Repr

/-- Dynamic stat read tempStats[name]; unknown names read as 0. -/
def Stats.get (s : Stats) (name : String) : ℚ :=
  if name == "attackPower" then s.attackPower
  else if name == "supernaturalPower" then s.supernaturalPower
  else if name == "physicalPower" then s.physicalPower
  else if name == "durability" then s.durability
  else if name == "vitality" then s.vitality
  else if name == "intelligence" then s.intelligence
  else if name == "speed" then s.speed
  else if name == "sp" then s.sp
  else if name == "maxSp" then s.maxSp
  else if name == "hp" then s.hp
  else 0

/-- Dynamic stat write tempStats[name] = v; a write to an unknown name
creates a property the engine never reads again, so it is a no-op here. -/
def Stats.set (s : Stats) (name : String) (v : ℚ) : Stats :=
  if name == "attackPower" then { s with attackPower := v }
  else if name == "supernaturalPower" then { s with supernaturalPower := v }
  else if name == "physicalPower" then { s with physicalPower := v }
  else if name == "durability" then { s with durability := v }
  else if name == "vitality" then { s with vitality := v }
  else if name == "intelligence" then { s with intelligence := v }
  else if name == "speed" then { s with speed := v }
  else if name == "sp" then { s with sp := v }
  else if name == "maxSp" then { s with maxSp := v }
  else if name == "hp" then { s with hp := v }
  else s

/-- Guard / Ability Shield slot of the per-turn context. -/
structure ShieldCtx where
  active : Bool
  precedence : ℚ
  duration : ℚ
deriving DecidableEq, Repr

/-- Revive slot of the per-turn context. -/
structure ReviveCtx where
  power : ℚ
  precedence : ℚ
  duration : ℚ
deriving DecidableEq, Repr

/-- Per-card damage-phase flags computed at the end of the pre-damage
phase (explicit durability negation, captured instant death). -/
structure PerCardFlags where
  durabilityNegation : Bool
  instantDeath : Option Ability
deriving DecidableEq, Repr

/-- Per-side per-turn ephemeral context record. -/
structure SideCtx where
  chanceUp : ℚ
  chanceDown : ℚ
  abilityShield : ShieldCtx
  guard : ShieldCtx
  frozenTurns : ℚ
  curseSuppress : ℚ
  perCard : List (String × PerCardFlags)
  revive : Option ReviveCtx
deriving DecidableEq, Repr

/-- Fresh per-side context, as built at the start of each resolution pass. -/
def SideCtx.fresh : SideCtx :=
  { chanceUp := 0, chanceDown := 0,
    abilityShield := { active := false, precedence := 0, duration := 0 },
    guard := { active := false, precedence := 0, duration := 0 },
    frozenTurns := 0, curseSuppress := 0, perCard := [], revive := none }

/-- Both sides' per-turn context. -/
structure Ctx where
  player : SideCtx
  enemy : SideCtx
deriving DecidableEq, Repr

/-- Fresh two-sided context. -/
def Ctx.fresh : Ctx := { player := SideCtx.fresh, enemy := SideCtx.fresh }

/-- Side projection of the context. -/
def Ctx.get (c : Ctx) : Side → SideCtx
  | .player => c.player
  | .enemy => c.enemy

/-- Side update of the context. -/
def Ctx.set (c : Ctx) : Side → SideCtx → Ctx
  | .player, v => { c with player := v }
  | .enemy, v => { c with enemy := v }

/-- Assoc-list get keyed by string (the Maps keyed by card instanceId). -/
def alistGet {β : Type} (l : List (String × β)) (k : String) : Option β :=
  (l.find? (fun p => p.1 == k)).map (fun p => p.2)

/-- Assoc-list in-place update or append. -/
def alistSet {β : Type} : List (String × β) → String → (Option β → β) → List (String × β)
  | [], k, f => [(k, f none)]
  | p :: rest, k, f =>
    if p.1 == k then (k, f (some p.2)) :: rest else p :: alistSet rest k f

/-- The persistent ability types adopted into the ledger. -/
def persistentTypes : List String :=
  ["Stats Up", "Stats Down", "Lucky", "Unluck", "Freeze", "Curse",
   "Guard", "Ability Shield", "Revive"]

/-- Opponent-targeting ability types (the list repeated at each use site
in the source). -/
def targetsOpponentType (t : String) : Bool :=
  t == "Stats Down" || t == "Freeze" || t == "Unluck" ||
  t == "Curse" || t == "Ability Negation" || t == "Instant Death" ||
  t == "Durability Negation"

/-- Model of applyPersistentToContext for one side: fold every unexpired
ledger entry into the working stats and context, in insertion order. -/
def applyPersistentToContext (sideKey : Side) (buckets : Buckets)
    (tempStats : Stats) (ctx : Ctx) : Stats × Ctx :=
  (buckets.get sideKey).foldl (fun (acc : Stats × Ctx) (eff : PersistentEffect) =>
    let stats := acc.1
    let c := acc.2
    if eff.remaining ≤ 0 then acc
    else if eff.type == "Stats Up" then
      let stat := eff.target.getD "attackPower"
      (stats.set stat (stats.get stat + eff.power), c)
    else if eff.type == "Stats Down" then
      let stat := eff.target.getD "attackPower"
      (stats.set stat (stats.get stat - eff.power), c)
    else if eff.type == "Lucky" then
      (stats, c.set sideKey { c.get sideKey with chanceUp := (c.get sideKey).chanceUp + eff.power })
    else if eff.type == "Unluck" then
      (stats, c.set sideKey { c.get sideKey with chanceDown := (c.get sideKey).chanceDown + eff.power })
    else if eff.type == "Freeze" then
      ({ stats with speed := 0 },
       c.set sideKey { c.get sideKey with frozenTurns := max (c.get sideKey).frozenTurns 1 })
    else if eff.type == "Curse" then
      (stats, c.set sideKey { c.get sideKey with
        curseSuppress := max (c.get sideKey).curseSuppress (min 3 (max 0 (jsFloor eff.power))) })
    else if eff.type == "Guard" then
      (stats, c.set sideKey { c.get sideKey with
        guard := { active := true, precedence := eff.precedence, duration := eff.remaining } })
    else if eff.type == "Ability Shield" then
      (stats, c.set sideKey { c.get sideKey with
        abilityShield := { active := true, precedence := eff.precedence, duration := eff.remaining } })
    else if eff.type == "Revive" then
      (stats, c.set sideKey { c.get sideKey with
        revive := some { power := eff.power, precedence := eff.precedence, duration := eff.remaining } })
    else acc) (tempStats, ctx)

/-- Model of willDodge: speed gap probability shifted by Lucky/Unluck,
compared against one draw. -/
def willDodge (attackerTemp defenderTemp : Stats) (ctx : Ctx)
    (sideKey otherK : Side) (rng : Rng) : Bool × Rng :=
  let p0 := clamp ((defenderTemp.speed - attackerTemp.speed) / 100) 0 1
  let p := clamp (p0 + ((ctx.get otherK).chanceUp - (ctx.get sideKey).chanceDown) / 100) 0 1
  let (r, rng1) := rng.next
  (decide (r < p), rng1)

/-- Stable insertion keeping strictly greater keys first (the new element
never jumps over an equal key, matching the stable JS sort). -/
def insertByGt {α : Type} (keyf : α → ℚ) (x : α) : List α → List α
  | [] => [x]
  | y :: rest =>
    if keyf x > keyf y then x :: y :: rest else y :: insertByGt keyf x rest

/-- Stable sort, descending by key — the JS (a, b) => keyB - keyA sort. -/
def sortByGt {α : Type} (keyf : α → ℚ) (l : List α) : List α :=
  l.foldl (fun acc x => insertByGt keyf x acc) []

/-- Stable insertion keeping strictly smaller keys first. -/
def insertByLt {α : Type} (keyf : α → ℚ) (x : α) : List α → List α
  | [] => [x]
  | y :: rest =>
    if keyf x < keyf y then x :: y :: rest else y :: insertByLt keyf x rest

/-- Stable sort, ascending by key — the JS (a, b) => keyA - keyB sort. -/
def sortByLt {α : Type} (keyf : α → ℚ) (l : List α) : List α :=
  l.foldl (fun acc x => insertByLt keyf x acc) []

/-- An entry of the precedence-ordered effect queue. -/
structure QEntry where
  card : CardSnap
  ability : Ability
deriving DecidableEq, Repr

/-- Model of buildEffectQueue: every ability with a real type and a
positive activation chance, stable-sorted by precedence descending. -/
def buildEffectQueue (cards : List CardSnap) : List QEntry :=
  let entries := cards.flatMap (fun card =>
    (card.abilities.filter (fun ab =>
      !(ab.type == "" || ab.type == "None" || ab.activationChance ≤ 0))).map
      (fun ab => ⟨card, ab⟩))
  sortByGt (fun e => e.ability.precedence) entries

/-- Model of resolveStatTarget: the legacy numeric code (or a numeric
coercion of linkedTo: an empty array coerces to 0, a singleton to its
numeric value, anything longer to NaN) picks the stat, else the card
type does. Normalized abilities carry no explicit target field. -/
def resolveStatTarget (ab : Ability) (cardTypes : List String) : String :=
  let code : Option Int :=
    match ab.legacyTargetCode with
    | some c => some c
    | none =>
      match ab.linkedTo with
      | [] => some 0
      | [s] => s.toInt?
      | _ => none
  match code with
  | some 1 => "attackPower"
  | some 2 => "physicalPower"
  | some 3 => "supernaturalPower"
  | some 4 => "durability"
  | some 5 => "speed"
  | _ =>
    if cardTypes.contains "Physical" then "physicalPower"
    else if cardTypes.contains "Supernatural" then "supernaturalPower"
    else "attackPower"

/-- A deferred attack-linked ability queued against its card instance. -/
structure ALEntry where
  card : CardSnap
  ability : Ability
  owner : Side
deriving DecidableEq, Repr

/-- Mutable state threaded through the pre-damage phase. -/
structure PrePhase where
  ctx : Ctx
  pendingPlayer : List QEntry
  pendingEnemy : List QEntry
  success : List (String × List String)
  attackLinked : List (String × List ALEntry)
  buckets : Buckets
  rng : Rng
deriving Repr

/-- Pending list of one side. -/
def PrePhase.pending (s : PrePhase) : Side → List QEntry
  | .player => s.pendingPlayer
  | .enemy => s.pendingEnemy

/-- Replace the pending list of one side. -/
def PrePhase.setPending (s : PrePhase) : Side → List QEntry → PrePhase
  | .player, l => { s with pendingPlayer := l }
  | .enemy, l => { s with pendingEnemy := l }

/-- Record a successful (card instance, ability key) pair. -/
def markSuccess (m : List (String × List String)) (iid key : String) :
    List (String × List String) :=
  alistSet m iid (fun old =>
    let ks := old.getD []
    if ks.contains key then ks else ks ++ [key])

/-- Has the (card instance, ability key) pair succeeded already? -/
def successHas (m : List (String × List String)) (iid key : String) : Bool :=
  ((alistGet m iid).getD []).contains key

/-- Model of blockedByShield: the target's Ability Shield is active with
precedence at least the ability's. -/
def blockedByShield (ctx : Ctx) (onTarget : Side) (ab : Ability) : Bool :=
  let shield := (ctx.get onTarget).abilityShield
  shield.active && decide (shield.precedence ≥ ab.precedence)

/-- One step of queueApply: dependency gating, chance computation, shield
block, attack-linked deferral, the activation roll, and the immediate
Guard / Ability Shield toggles, in source order. -/
def queueApplyStep (sourceKey : Side) (attackerTemp defenderTemp : Stats)
    (owner target : Side) (s : PrePhase) (entry : QEntry) : PrePhase :=
  let card := entry.card
  let ab := entry.ability
  let parents := ab.linkedTo.filter (fun x => x != "attack")
  if !parents.isEmpty && !(parents.all (fun p => successHas s.success card.instanceId p)) then
    s
  else
    let ownerTemp := if owner == sourceKey then attackerTemp else defenderTemp
    let baseChance :=
      clamp (ab.activationChance + (s.ctx.get owner).chanceUp - (s.ctx.get target).chanceDown) 0 100
    let finalChance := intMult baseChance ownerTemp.intelligence
    let targetsOpponent := targetsOpponentType ab.type
    if targetsOpponent && blockedByShield s.ctx target ab then
      s
    else if ab.linkedTo.contains "attack" then
      { s with
        attackLinked := (alistSet s.attackLinked card.instanceId
          (fun old => old.getD [] ++ [⟨card, ab, owner⟩])),
        success := markSuccess s.success card.instanceId ab.key }
    else
      let (ok, rng1) := roll finalChance s.rng
      if !ok then { s with rng := rng1 }
      else
        let s1 := { s with rng := rng1,
                           success := markSuccess s.success card.instanceId ab.key }
        let s2 := s1.setPending owner (s1.pending owner ++ [entry])
        let dur := if ab.duration == 0 then 1 else ab.duration
        let sh : ShieldCtx := { active := true, precedence := ab.precedence, duration := dur }
        let s3 :=
          if ab.type == "Ability Shield" then
            { s2 with ctx := s2.ctx.set owner { s2.ctx.get owner with abilityShield := sh } }
          else s2
        if ab.type == "Guard" then
          { s3 with ctx := s3.ctx.set owner { s3.ctx.get owner with guard := sh } }
        else s3

/-- Model of queueApply: fold the queue through queueApplyStep. -/
def queueApply (sourceKey : Side) (attackerTemp defenderTemp : Stats)
    (owner target : Side) (queue : List QEntry) (s : PrePhase) : PrePhase :=
  queue.foldl (queueApplyStep sourceKey attackerTemp defenderTemp owner target) s

/-- Negation removal budget: clamp(floor(power), 1, 3), as an integer. -/
def negBudget (power : ℚ) : Int := min 3 (max 1 power.floor)

/-- Walk of one negation over the ascending-precedence ledger view:
collect entries to remove while the budget lasts, skipping entries whose
precedence is not strictly below the negation's. -/
def negLoop (p : ℚ) : List PersistentEffect → Int → List PersistentEffect
  | [], _ => []
  | e :: rest, budget =>
    if budget ≤ 0 then []
    else if e.precedence < p then e :: negLoop p rest (budget - 1)
    else negLoop p rest budget

/-- One pending Ability Negation applied to the target bucket: delete up
to the budget of strictly-lower-precedence entries, lowest precedence
first. -/
def negateOnce (bk : Bucket) (ab : Ability) : Bucket :=
  let ordered := sortByLt (fun e => e.precedence) bk
  let toRemove := negLoop ab.precedence ordered (negBudget ab.power)
  toRemove.foldl (fun b e => bucketDelete b e.key) bk

/-- Maximum of a list of rationals (only reached on nonempty lists, as in
the guarded Math.max spread of the source). -/
def listMax : List ℚ → ℚ
  | [] => 0
  | x :: rest => rest.foldl max x

/-- Model of applyNegation(owner, target): each of the owner's pending
Negation successes strips the target bucket in turn, then the target's
still-pending abilities below the strongest negation precedence are
dropped. -/
def applyNegation (owner target : Side) (s : PrePhase) : PrePhase :=
  let entries := (s.pending owner).filter (fun p =>
    p.ability.type == "Ability Negation" && decide (p.ability.power > 0))
  if entries.isEmpty then s
  else
    let bk := entries.foldl (fun b e => negateOnce b e.ability) (s.buckets.get target)
    let maxPrec := listMax (entries.map (fun e => e.ability.precedence))
    let s1 := { s with buckets := s.buckets.set target bk }
    s1.setPending target ((s1.pending target).filter (fun e =>
      decide (e.ability.precedence ≥ maxPrec)))

/-- Model of adoptPendingFor(owner, target): upsert every pending
persistent ability into the destination bucket (opponent-targeting types
to the target, others to the owner), resolving the stat target for
Stats Up / Stats Down. -/
def adoptPendingFor (owner target : Side) (s : PrePhase) : PrePhase :=
  (s.pending owner).foldl (fun st e =>
    let ab := e.ability
    if !(persistentTypes.contains ab.type) then st
    else
      let dest := if targetsOpponentType ab.type then target else owner
      let tgt : Option String :=
        if ab.type == "Stats Up" || ab.type == "Stats Down" then
          some (resolveStatTarget ab (getTypes e.card))
        else none
      let entry : UpsertEntry :=
        { type := ab.type, target := tgt, power := ab.power,
          precedence := ab.precedence, duration := ab.duration }
      { st with buckets := (st.buckets.set dest
          (upsertPersistentEffect (st.buckets.get dest) entry)) }) s

/-- Per-card damage-phase flags: an unlinked Durability Negation sets the
bypass flag; the last Instant Death ability is captured. -/
def perCardFlags (cards : List CardSnap) : List (String × PerCardFlags) :=
  cards.map (fun card =>
    (card.instanceId,
     card.abilities.foldl (fun per ab =>
       let per1 :=
         if ab.type == "Durability Negation" && ab.linkedTo.isEmpty then
           { per with durabilityNegation := true }
         else per
       if ab.type == "Instant Death" then { per1 with instantDeath := some ab }
       else per1)
       ({ durabilityNegation := false, instantDeath := none } : PerCardFlags)))

/-- Model of applyAbilityPreDamagePhase: attacker queue then defender
queue, symmetric negation, adoption into the ledger, and the per-card
flags, exactly in source order. The source's unused base-stat parameters
are dropped. -/
def applyAbilityPreDamagePhase (attackerTemp defenderTemp : Stats)
    (attackerCards defenderCards : List CardSnap)
    (ctx : Ctx) (buckets : Buckets) (sourceKey : Side) (rng : Rng) : PrePhase :=
  let targetKey := sourceKey.other
  let s0 : PrePhase :=
    { ctx := ctx, pendingPlayer := [], pendingEnemy := [],
      success := [], attackLinked := [], buckets := buckets, rng := rng }
  let atkQueue := buildEffectQueue attackerCards
  let defQueue := buildEffectQueue defenderCards
  let s1 := queueApply sourceKey attackerTemp defenderTemp sourceKey targetKey atkQueue s0
  let s2 := queueApply sourceKey attackerTemp defenderTemp targetKey sourceKey defQueue s1
  let s3 := applyNegation sourceKey targetKey s2
  let s4 := applyNegation targetKey sourceKey s3
  let s5 := adoptPendingFor sourceKey targetKey s4
  let s6 := adoptPendingFor targetKey sourceKey s5
  let ctx1 := (s6.ctx.set sourceKey
    { s6.ctx.get sourceKey with perCard := perCardFlags attackerCards })
  let ctx2 := (ctx1.set targetKey
    { ctx1.get targetKey with perCard := perCardFlags defenderCards })
  { s6 with ctx := ctx2 }

/-- Net damage of one played attacking card, from the damage loop body:
raw = (potency + type-matched power) * attackPower, effective defense =
(durability + card defense bonus, or 0 under bypass) * type-matched
opposing power / 2, floored at 0. -/
def cardNetDamage (card : CardSnap) (atkTemp defTemp : Stats)
    (bypassGuard : Bool) (defBuffDef : ℚ) : ℚ :=
  let types := getTypes card
  let potency := card.potency
  let powerStat := if types.contains "Physical" then atkTemp.physicalPower
    else atkTemp.supernaturalPower
  let effAtkPow := atkTemp.attackPower
  let rawDamage := (potency + powerStat) * effAtkPow
  let defenderDurability := if bypassGuard then 0 else defTemp.durability + defBuffDef
  let defenderPowerStat := if types.contains "Physical" then defTemp.physicalPower
    else defTemp.supernaturalPower
  let effDefense := defenderDurability * defenderPowerStat / 2
  max (rawDamage - effDefense) 0

/-- Bypass decision of the damage loop: the per-card explicit flag, or
any attack-linked Durability Negation queued against the card. -/
def playedCardBypass (ctxSelf : SideCtx)
    (attackLinked : List (String × List ALEntry)) (card : CardSnap) : Bool :=
  let per := (alistGet ctxSelf.perCard card.instanceId).getD
    { durabilityNegation := false, instantDeath := none }
  let linkedList := (alistGet attackLinked card.instanceId).getD []
  per.durabilityNegation ||
    (!linkedList.isEmpty && linkedList.any (fun x => x.ability.type == "Durability Negation"))

/-- One played card's pass through the damage loop: type gate, Guard
gate, dodge roll, then the net-damage formula. -/
def playedDamageStep (atkSide : Side) (atkTemp defTemp : Stats) (ctx : Ctx)
    (attackLinked : List (String × List ALEntry)) (defBuffDef : ℚ)
    (acc : ℚ × Rng) (card : CardSnap) : ℚ × Rng :=
  let types := getTypes card
  if !(types.contains "Physical" || types.contains "Supernatural") then acc
  else
    let bypassGuard := playedCardBypass (ctx.get atkSide) attackLinked card
    let guardActive := (ctx.get atkSide.other).guard.active
    if guardActive && !bypassGuard then acc
    else
      let (dodged, rng1) := willDodge atkTemp defTemp ctx atkSide atkSide.other acc.2
      if dodged then (acc.1, rng1)
      else (acc.1 + cardNetDamage card atkTemp defTemp bypassGuard defBuffDef, rng1)

/-- Total net damage of the played cards of one side, folding the damage
loop. -/
def playedDamageTotal (atkSide : Side) (atkTemp defTemp : Stats) (ctx : Ctx)
    (attackLinked : List (String × List ALEntry)) (defBuffDef : ℚ)
    (cards : List CardSnap) (rng : Rng) : ℚ × Rng :=
  cards.foldl (playedDamageStep atkSide atkTemp defTemp ctx attackLinked defBuffDef) (0, rng)

/-- Unique sampling loop shared by pickRandomUniqueTurns and the child
schedule sampler: each iteration draws once, removes the chosen element
and keeps it, for a fixed number of iterations (the source loops until
the pick set reaches that size; every iteration grows it by one since
the pool holds distinct turns). The index is clamped into range, which
matches floor(r * length) for draws in [0, 1). -/
def samplePickLoop : List ℚ → ℕ → Rng → List ℚ × Rng
  | _, 0, rng => ([], rng)
  | all, n + 1, rng =>
    let (r, rng1) := rng.next
    let idx := min ((r * (all.length : ℚ)).floor.toNat) (all.length - 1)
    let turn := all.getD idx 0
    let rest := all.eraseIdx idx
    let res := samplePickLoop rest n rng1
    (turn :: res.1, res.2)

/-- Model of pickRandomUniqueTurns(totalTurns, count): a unique random
sample of count turns from 1..totalTurns. -/
def pickRandomUniqueTurns (totalTurns count : ℕ) (rng : Rng) : List ℚ × Rng :=
  samplePickLoop ((List.range totalTurns).map (fun i => ((i : ℚ) + 1))) (min count totalTurns) rng

/-- Retargeting policy of a FieldCard. -/
structure Targeting where
  mode : String
  scope : String
deriving DecidableEq, Repr

/-- Current target of a FieldCard: the opposing character, or a specific
on-field snapshot. -/
structure TargetRef where
  kind : String
  side : Option Side
  instanceId : Option String
deriving DecidableEq, Repr

/-- Precomputed schedule data of a FieldCard. -/
structure ScheduleState where
  turnIndex : ℚ
  dnAuto : Bool
  dnTurns : Option (List ℚ)
  childTurns : List (String × List ℚ)
deriving DecidableEq, Repr

/-- A card staged on the field for multi-turn auto-hits; card = none
models a snapshot whose card payload is missing (malformed). -/
structure FieldCard where
  instanceId : String
  owner : Side
  card : Option CardSnap
  turnsRemaining : ℚ
  link : String
  targeting : Targeting
  targetRef : TargetRef
  scheduleState : ScheduleState
deriving DecidableEq, Repr

/-- The two sides' on-field arrays. -/
structure OnField where
  player : List FieldCard
  enemy : List FieldCard
deriving DecidableEq, Repr

/-- Field list of one side. -/
def OnField.get (f : OnField) : Side → List FieldCard
  | .player => f.player
  | .enemy => f.enemy

/-- Replace the field list of one side. -/
def OnField.set (f : OnField) : Side → List FieldCard → OnField
  | .player, l => { f with player := l }
  | .enemy, l => { f with enemy := l }

/-- The list-typed schedule of an ability's multiHit block, when present. -/
def abListSchedule (ab : Ability) : Option (List ℚ) :=
  match ab.multiHit with
  | some mhc =>
    match mhc.schedule with
    | some sch => if sch.stype == "list" then some sch.turns else none
    | none => none
  | none => none

/-- Model of makeFieldCard: find the primary Multi-Hit ability, precompute
the optional DN turn set and each linked child's firing turns, snapshot
the card (without its instanceId) and build the FieldCard with
turnsRemaining = turns - 1. Returns none when the card has no active
Multi-Hit. -/
def makeFieldCard (owner : Side) (card : CardSnap) (rng : Rng) : Option FieldCard × Rng :=
  let abilities := card.abilities
  match abilities.find? (fun a =>
    a.type == "Multi-Hit" && decide (((a.multiHit.map (fun mm => mm.turns)).getD 0) > 0)) with
  | none => (none, rng)
  | some mh =>
    let m := mh.multiHit.getD
      { turns := 0, link := "attack", overlap := "inherit",
        schedule := none, targetingMode := none, targetingScope := none }
    let dnAb := abilities.find? (fun a => a.type == "Durability Negation")
    let totalQ := max 1 m.turns
    let totalN := totalQ.floor.toNat
    let dnPick : Option (List ℚ) × Rng :=
      match dnAb with
      | some d =>
        if d.durabilityNegation.auto == false then
          match d.durabilityNegation.schedule with
          | some sch =>
            if sch.stype == "random" then
              let iter := (min (min totalQ sch.times) (totalN : ℚ)).ceil.toNat
              let res := samplePickLoop ((List.range totalN).map (fun i => ((i : ℚ) + 1))) iter rng
              (some res.1, res.2)
            else if sch.stype == "list" then
              (some ((sch.turns.filter (fun t => decide (1 ≤ t) && decide (t ≤ totalQ))).eraseDups), rng)
            else (none, rng)
          | none => (none, rng)
        else (none, rng)
      | none => (none, rng)
    let dnTurnsSet := dnPick.1
    let rng1 := dnPick.2
    let childFold := abilities.foldl (fun (acc : List (String × List ℚ) × Rng) ab =>
      if ab.type == "Multi-Hit" then acc
      else
        let linked := ab.linkedTo
        let linkedToPrimary := linked.contains "attack" ||
          (!(mh.key == "") && linked.contains mh.key)
        if !linkedToPrimary then acc
        else
          match ab.multiHit with
          | none => acc
          | some mhc =>
            match mhc.schedule with
            | none => acc
            | some sched =>
              let poolLen := (max 0 (totalQ - 1)).floor.toNat
              let pool := (List.range poolLen).map (fun i => ((i : ℚ) + 2))
              let picked : List ℚ × Rng :=
                if sched.stype == "list" then
                  (sched.turns.filter (fun t => t.den == 1 && decide (2 ≤ t) && decide (t ≤ totalQ)),
                   acc.2)
                else if sched.stype == "random" then
                  let iter := (min ((poolLen : ℚ)) (max 1 sched.times)).ceil.toNat
                  samplePickLoop pool iter acc.2
                else ([], acc.2)
              if picked.1.isEmpty then (acc.1, picked.2)
              else (alistSet acc.1 ab.key (fun _ => picked.1), picked.2)) ([], rng1)
    let childTurns := childFold.1
    let rng2 := childFold.2
    let snapshot : CardSnap := { card with instanceId := "" }
    (some {
      instanceId := card.instanceId,
      owner := owner,
      card := some snapshot,
      turnsRemaining := max 0 (m.turns - 1),
      link := if m.link == "" then "attack" else m.link,
      targeting := {
        mode := (fun s => if s == "" then "lock" else s) (m.targetingMode.getD ""),
        scope := (fun s => if s == "" then "character" else s) (m.targetingScope.getD "") },
      targetRef := { kind := "character", side := none, instanceId := none },
      scheduleState := {
        turnIndex := 0,
        dnAuto := (match dnAb with
          | some d => d.durabilityNegation.auto
          | none => false),
        dnTurns := dnTurnsSet,
        childTurns := childTurns } }, rng2)

/-- A pending retarget prompt surfaced to the UI. -/
structure RetargetPrompt where
  owner : Side
  instanceId : String
deriving DecidableEq, Repr

/-- Model of resolveTargetRef inside processFieldHits: character targets
pass through; a field target that no longer exists is dropped, freshly
retargeted, or surfaced as a prompt depending on the targeting mode. -/
def resolveTargetRef (mineKey : Side) (mine other : List FieldCard) (fc : FieldCard) :
    Option TargetRef × List RetargetPrompt :=
  let targetRef := fc.targetRef
  let targeting := fc.targeting
  if targetRef.kind == "character" then (some targetRef, [])
  else if targetRef.kind == "field" then
    let lst := if targetRef.side == some mineKey then mine else other
    let stillThere := lst.any (fun x => x.instanceId == targetRef.instanceId.getD "")
    if stillThere then (some targetRef, [])
    else if targeting.mode == "lock" then (none, [])
    else if targeting.mode == "retarget-random" then
      (some { kind := "character", side := none, instanceId := none }, [])
    else if targeting.mode == "retarget-choose" then
      (none, [{ owner := mineKey, instanceId := fc.instanceId }])
    else (none, [])
  else (some { kind := "character", side := none, instanceId := none }, [])

/-- Accumulator of the per-field-card loop in processFieldHits. -/
structure FieldAcc where
  totalDamage : ℚ
  updated : List FieldCard
  expiredMine : List FieldCard
  buckets : Buckets
  prompts : List RetargetPrompt
deriving Repr

/-- One linked child ability's firing check and upsert during a field
tick. -/
def fieldChildStep (mineKey : Side) (overallTurn : ℚ) (fc : FieldCard)
    (primary : Ability) (a : FieldAcc) (ab : Ability) : FieldAcc :=
  if ab.type == "Multi-Hit" then a
  else
    let linked := ab.linkedTo
    let linkedToPrimary := linked.contains "attack" ||
      (!(primary.key == "") && linked.contains primary.key)
    if !linkedToPrimary then a
    else
      let willFire :=
        match abListSchedule ab with
        | some lst => lst.contains overallTurn
        | none =>
          match alistGet fc.scheduleState.childTurns ab.key with
          | some pre => pre.contains overallTurn
          | none => true
      if !willFire then a
      else
        let dest := if targetsOpponentType ab.type then mineKey.other else mineKey
        let tgt : Option String :=
          if ab.type == "Stats Up" || ab.type == "Stats Down" then
            some (resolveStatTarget ab (match fc.card with
              | some c => c.types
              | none => []))
          else none
        let entry : UpsertEntry :=
          { type := ab.type, target := tgt, power := ab.power,
            precedence := ab.precedence, duration := ab.duration }
        { a with buckets := (a.buckets.set dest
            (upsertPersistentEffect (a.buckets.get dest) entry)) }

/-- Child-ability firing of one field tick: every non-primary ability
linked to the primary / attack whose schedule covers this overall turn is
upserted into the destination bucket (the source applies no
persistent-type filter here). -/
def fieldChildFire (mineKey : Side) (overallTurn : ℚ) (fc : FieldCard) (acc : FieldAcc) :
    FieldAcc :=
  let abs := match fc.card with
    | some c => c.abilities
    | none => []
  match abs.find? (fun a => a.type == "Multi-Hit") with
  | none => acc
  | some primary =>
    abs.foldl (fieldChildStep mineKey overallTurn fc primary) acc

/-- One field card's pass through the processFieldHits loop: resolve the
target, compute the scheduled hit (skipping a malformed snapshot, which
is kept alive with its remaining turns decremented toward 0 and its
schedule state untouched), fire scheduled children, then carry forward or
expire. -/
def processOneFieldCard (mineKey : Side) (mine other : List FieldCard)
    (attackerBase defenderBase : Stats) (acc : FieldAcc) (fc : FieldCard) : FieldAcc :=
  if fc.turnsRemaining ≤ 0 then acc
  else
    let rt := resolveTargetRef mineKey mine other fc
    let resolvedTarget := rt.1
    let acc1 := { acc with prompts := acc.prompts ++ rt.2 }
    let nextTurnIndex := fc.scheduleState.turnIndex + 1
    let overallTurn := nextTurnIndex + 1
    let dnActive := fc.scheduleState.dnAuto ||
      (match fc.scheduleState.dnTurns with
       | some l => l.contains overallTurn
       | none => false)
    let nextRemaining := fc.turnsRemaining - 1
    let isCharHit := match resolvedTarget with
      | some r => r.kind == "character"
      | none => false
    if isCharHit && fc.card.isNone then
      { acc1 with updated := acc1.updated ++
          [{ fc with turnsRemaining := max 0 (fc.turnsRemaining - 1) }] }
    else
      let acc2 :=
        match fc.card with
        | some c =>
          if isCharHit then
            let types := getTypes c
            let isPhysical := types.contains "Physical"
            let atkPow := attackerBase.attackPower
            let potency := c.potency
            let atkStat := if isPhysical then attackerBase.physicalPower
              else attackerBase.supernaturalPower
            let defenderDur := if dnActive then 0 else defenderBase.durability
            let defenderStat := if isPhysical then defenderBase.physicalPower
              else defenderBase.supernaturalPower
            let raw := (potency + atkStat) * atkPow
            let effDef := defenderDur * defenderStat / 2
            let net := max (raw - effDef) 0
            { acc1 with totalDamage := acc1.totalDamage + net }
          else acc1
        | none => acc1
      let acc3 := fieldChildFire mineKey overallTurn fc acc2
      let carry := { fc with
        turnsRemaining := nextRemaining,
        scheduleState := { fc.scheduleState with turnIndex := nextTurnIndex } }
      if nextRemaining > 0 then { acc3 with updated := acc3.updated ++ [carry] }
      else { acc3 with expiredMine := acc3.expiredMine ++ [{ fc with turnsRemaining := 0 }] }

/-- Damage slice of one field card's tick, in isolation: the same
type-matched formula processOneFieldCard adds, and 0 for a skipped,
malformed or non-character tick. Used to state that field damage ignores
the ledger. -/
def fieldCardDamage (mineKey : Side) (mine other : List FieldCard)
    (attackerBase defenderBase : Stats) (fc : FieldCard) : ℚ :=
  if fc.turnsRemaining ≤ 0 then 0
  else
    let rt := resolveTargetRef mineKey mine other fc
    let isCharHit := match rt.1 with
      | some r => r.kind == "character"
      | none => false
    if isCharHit && fc.card.isNone then 0
    else
      match fc.card with
      | some c =>
        if isCharHit then
          let nextTurnIndex := fc.scheduleState.turnIndex + 1
          let overallTurn := nextTurnIndex + 1
          let dnActive := fc.scheduleState.dnAuto ||
            (match fc.scheduleState.dnTurns with
             | some l => l.contains overallTurn
             | none => false)
          let types := getTypes c
          let isPhysical := types.contains "Physical"
          let atkPow := attackerBase.attackPower
          let potency := c.potency
          let atkStat := if isPhysical then attackerBase.physicalPower
            else attackerBase.supernaturalPower
          let defenderDur := if dnActive then 0 else defenderBase.durability
          let defenderStat := if isPhysical then defenderBase.physicalPower
            else defenderBase.supernaturalPower
          let raw := (potency + atkStat) * atkPow
          let effDef := defenderDur * defenderStat / 2
          max (raw - effDef) 0
        else 0
      | none => 0

/-- Result of processFieldHits. -/
structure FieldResult where
  damageDone : ℚ
  onField : OnField
  expired : List FieldCard
  buckets : Buckets
  prompts : List RetargetPrompt
deriving Repr

/-- Model of processFieldHits: run one scheduled hit for each of the
side's live field cards, returning the summed damage, the updated field
arrays, the expired snapshots, the ledger (mutated by fired children)
and any retarget prompts. -/
def processFieldHits (sideKey : Side) (onField : OnField)
    (attackerBase defenderBase : Stats) (buckets : Buckets) : FieldResult :=
  let mineKey := sideKey
  let otherKey := mineKey.other
  let mine := onField.get mineKey
  let other := onField.get otherKey
  let acc0 : FieldAcc :=
    { totalDamage := 0, updated := [], expiredMine := [], buckets := buckets, prompts := [] }
  let acc := mine.foldl (processOneFieldCard mineKey mine other attackerBase defenderBase) acc0
  { damageDone := acc.totalDamage,
    onField := onField.set mineKey acc.updated,
    expired := acc.expiredMine,
    buckets := acc.buckets,
    prompts := acc.prompts }

/-- Authored per-card priority entry of the enemy AI config. -/
structure AiCardPriority where
  cardId : String
  priority : ℚ
deriving DecidableEq, Repr

/-- Authored combo of the enemy AI config. -/
structure AiCombo where
  cards : List String
  priority : ℚ
deriving DecidableEq, Repr

/-- Scoring weights of the enemy AI config. -/
structure AiWeights where
  play : ℚ
  skip : ℚ
  defend : ℚ
deriving DecidableEq, Repr

/-- Enemy AI config. -/
structure AiConfig where
  cardPriority : List AiCardPriority
  combos : List AiCombo
  spSkipThreshold : ℚ
  defendHpThreshold : ℚ
  weights : AiWeights
  greedChance : Option ℚ
deriving DecidableEq, Repr

/-- Authored priority of one hand card (0 when unlisted; the id checks
mirror the truthiness guards of the source). -/
def cardPriorityOf (cfg : AiConfig) (c : CardSnap) : ℚ :=
  (((cfg.cardPriority.find? (fun x =>
    x.cardId != "" && c.id != "" && x.cardId == c.id)).map (fun x => x.priority)).getD 0)

/-- Model of the combo selection loop: the last combo with an exact
resolvable card set, affordable cost and a strictly higher priority than
any earlier winner. Returns the resolved cards and the winning priority. -/
def bestComboOf (combos : List AiCombo) (hand : List CardSnap) (sp : ℚ) :
    Option (List CardSnap) × ℚ :=
  combos.foldl (fun (acc : Option (List CardSnap) × ℚ) combo =>
    let cardObjs := combo.cards.filterMap (fun cid =>
      hand.find? (fun c => c.id != "" && c.id == cid))
    let cost := (cardObjs.map (fun c => c.spCost)).sum
    if cardObjs.length == combo.cards.length && decide (cost ≤ sp) &&
        decide (combo.priority > acc.2) then
      (some cardObjs, combo.priority)
    else acc) (none, 0)

/-- The greedy play set: the best combo's cards plus remaining hand cards
added highest-priority first while SP allows. -/
def greedyPlaySet (cfg : AiConfig) (hand : List CardSnap) (sp : ℚ) : List CardSnap :=
  let bestCombo := (bestComboOf cfg.combos hand sp).1
  let singles := hand.filter (fun c =>
    match bestCombo with
    | none => true
    | some l => !(l.any (fun b =>
        b.instanceId != "" && c.instanceId != "" && b.instanceId == c.instanceId)))
  let sorted := sortByGt (cardPriorityOf cfg) singles
  let startSp := match bestCombo with
    | some l => (l.map (fun c => c.spCost)).sum
    | none => 0
  let start : List CardSnap := bestCombo.getD []
  (sorted.foldl (fun (acc : List CardSnap × ℚ) c =>
    if acc.2 + c.spCost ≤ sp then (acc.1 ++ [c], acc.2 + c.spCost) else acc)
    (start, startSp)).1

/-- An enemy decision: an action string and the cards to play. -/
structure EnemyDecision where
  action : String
  cards : List CardSnap
deriving DecidableEq, Repr

/-- Model of chooseEnemyAction: combo + greedy singles, the greed
short-circuit (one draw, taken only when no combo was found and the
greedy set is non-empty), the malformed-card bailout, then the
play/skip/defend scoring with tie-break play over defend over skip. -/
def chooseEnemyAction (enemyStats : Stats) (enemySp enemyHp enemyMaxHp : ℚ)
    (enemyHand : List CardSnap) (cfg : AiConfig) (rng : Rng) : EnemyDecision × Rng :=
  let bc := bestComboOf cfg.combos enemyHand enemySp
  let bestCombo := bc.1
  let bestComboScore := bc.2
  let playCards := greedyPlaySet cfg enemyHand enemySp
  let greedChance := cfg.greedChance.getD (3 / 20)
  let greedStep : Option EnemyDecision × Rng :=
    if bestCombo.isNone && !playCards.isEmpty then
      let (r, rng1) := rng.next
      (if r < greedChance then some { action := "play", cards := playCards } else none, rng1)
    else (none, rng)
  match greedStep.1 with
  | some d => (d, greedStep.2)
  | none =>
    let rng2 := greedStep.2
    if playCards.any (fun c => c.name == "") then ({ action := "skip", cards := [] }, rng2)
    else
      let playScore := cfg.weights.play *
        (bestComboScore + (playCards.map (cardPriorityOf cfg)).sum)
      let spRatio := enemySp / enemyStats.maxSp
      let skipBoost := if spRatio < cfg.spSkipThreshold then
          (cfg.spSkipThreshold - spRatio) / cfg.spSkipThreshold
        else 0
      let skipScore := cfg.weights.skip * skipBoost
      let hpRatio := enemyHp / enemyMaxHp
      let defendBoost := if hpRatio < cfg.defendHpThreshold then
          (cfg.defendHpThreshold - hpRatio) / cfg.defendHpThreshold
        else 0
      let defendScore := cfg.weights.defend * defendBoost
      if playScore ≥ defendScore && playScore ≥ skipScore then
        ({ action := "play", cards := playCards }, rng2)
      else if defendScore ≥ skipScore then ({ action := "defend", cards := [] }, rng2)
      else ({ action := "skip", cards := [] }, rng2)

/-- Placeholder card used only where JS would spread a null payload. -/
def defaultCard : CardSnap :=
  { id := "", instanceId := "", name := "", spCost := 0, potency := 0,
    defense := 0, types := [], abilities := [] }

/-- Swap two positions of a card list. -/
def cardsSwap (l : List CardSnap) (i j : ℕ) : List CardSnap :=
  let vi := l.getD i defaultCard
  let vj := l.getD j defaultCard
  (l.set i vj).set j vi

/-- Fisher-Yates walk of the reshuffle in drawUpToHand, from the top
index down to 1, one draw per step. -/
def fyLoop : List CardSnap → ℕ → Rng → List CardSnap × Rng
  | arr, 0, rng => (arr, rng)
  | arr, i + 1, rng =>
    let (r, rng1) := rng.next
    let j := min ((r * ((i : ℚ) + 2)).floor.toNat) (i + 1)
    fyLoop (cardsSwap arr (i + 1) j) i rng1

/-- Shuffle of the discard pile. -/
def shuffleCards (l : List CardSnap) (rng : Rng) : List CardSnap × Rng :=
  match l.length with
  | 0 => (l, rng)
  | n + 1 => fyLoop l n rng

/-- Draw loop of drawUpToHand: shift cards off the deck while the hand is
short, silently dropping a card whose instanceId is already held. -/
def drawLoop (handSize : ℕ) : List CardSnap → List String → List CardSnap →
    List CardSnap × List CardSnap
  | hand, _, [] => (hand, [])
  | hand, ids, next :: deck =>
    if hand.length < handSize then
      if ids.contains next.instanceId then drawLoop handSize hand ids deck
      else drawLoop handSize (hand ++ [next]) (ids ++ [next.instanceId]) deck
    else (hand, next :: deck)

/-- Model of drawUpToHand: remove played cards, draw from the deck, and
when still short reshuffle the discard pile into the deck and draw again. -/
def drawUpToHand (oldHand deck discard played : List CardSnap) (handSize : ℕ)
    (rng : Rng) : (List CardSnap × List CardSnap × List CardSnap) × Rng :=
  let newHand := oldHand.filter (fun c =>
    !(played.any (fun pc => pc.instanceId == c.instanceId)))
  let ids := newHand.map (fun c => c.instanceId)
  let d1 := drawLoop handSize newHand ids deck
  if d1.1.length < handSize && !discard.isEmpty then
    let sh := shuffleCards discard rng
    let deck2 := d1.2 ++ sh.1
    let ids1 := d1.1.map (fun c => c.instanceId)
    let d2 := drawLoop handSize d1.1 ids1 deck2
    ((d2.1, d2.2, []), sh.2)
  else ((d1.1, d1.2, discard), rng)

/-- The simple refill loop of the player pile update (no dedup). -/
def drawSimple (handSize : ℕ) : List CardSnap → List CardSnap →
    List CardSnap × List CardSnap
  | hand, [] => (hand, [])
  | hand, next :: deck =>
    if hand.length < handSize then drawSimple handSize (hand ++ [next]) deck
    else (hand, next :: deck)

/-- Hand size and field slot constants of the source. -/
def HAND_SIZE : ℕ := 3

/-- Maximum live FieldCards per side. -/
def MAX_FIELD_SLOTS : ℕ := 3

/-- Does the card carry an active Multi-Hit ability? -/
def hasMultiHit (card : CardSnap) : Bool :=
  card.abilities.any (fun a =>
    a.type == "Multi-Hit" && decide (((a.multiHit.map (fun mm => mm.turns)).getD 0) > 0))

/-- JS falsiness of the action string (absent or empty). -/
def actionFalsy (a : Option String) : Bool :=
  match a with
  | none => true
  | some s => s == ""

/-- Is the side force-skipped by a persistent Freeze with remaining > 0? -/
def sideFrozen (b : Bucket) : Bool :=
  b.any (fun e => e.type == "Freeze" && decide (e.remaining > 0))

/-- Revive check performed at the HP-lowering points of playTurn: when HP
is at or below 0 and the ledger holds a Revive entry, HP becomes
max(1, floor(vitality * 100 * clamp(power, 0, 100) / 100)) and the entry
is deleted. -/
def reviveCheck (vitality hp : ℚ) (bucket : Bucket) : ℚ × Bucket :=
  if hp ≤ 0 && bucketHas bucket "Revive" then
    match bucketGet bucket "Revive" with
    | some eff =>
      let pct := clamp eff.power 0 100
      (max 1 (jsFloor (vitality * 100 * (pct / 100))), bucketDelete bucket "Revive")
    | none => (hp, bucket)
  else (hp, bucket)

/-- Rebuild a deck card from an expired field snapshot (spread of the
snapshot plus the instanceId; a missing payload spreads to nothing). -/
def recycleCard (fc : FieldCard) : CardSnap :=
  match fc.card with
  | some c => { c with instanceId := fc.instanceId }
  | none => { defaultCard with instanceId := fc.instanceId }

/-- One playTurn request, as seen after the surrounding layer's stat
normalization and catalog lookups: the action and selection, both sides'
normalized stats and piles, the echoed ledger and field arrays, the
enemy AI config, the seed flag, and the random stream. RetargetChoices
and negationTarget are absent (their blocks then do nothing). -/
structure TurnInput where
  action : Option String
  selectedCardIds : List String
  seed : Bool
  playerStats : Stats
  enemyStats : Stats
  hand : List CardSnap
  deck : List CardSnap
  discard : List CardSnap
  enemyHand : List CardSnap
  enemyDeck : List CardSnap
  enemyDiscard : List CardSnap
  activeEffectsPlayer : List PersistentEffect
  activeEffectsEnemy : List PersistentEffect
  onFieldPlayer : List FieldCard
  onFieldEnemy : List FieldCard
  aiConfig : AiConfig
  rng : Rng
deriving DecidableEq, Repr

/-- Working state threaded through the turn. -/
structure TurnState where
  playerStats : Stats
  enemyStats : Stats
  playerHp : ℚ
  playerSp : ℚ
  enemyHp : ℚ
  enemySp : ℚ
  hand : List CardSnap
  deck : List CardSnap
  discard : List CardSnap
  enemyHand : List CardSnap
  enemyDeck : List CardSnap
  enemyDiscard : List CardSnap
  buckets : Buckets
  onField : OnField
  playerBuffDef : ℚ
  enemyBuffDef : ℚ
  message : String
  defendUsed : Bool
  prompts : List RetargetPrompt
  stashMH : List CardSnap
  rng : Rng
deriving DecidableEq, Repr

/-- Turn response payload (the fields of the result object that carry
state; display-only derived stats are omitted). -/
structure TurnResp where
  playerHp : ℚ
  playerSp : ℚ
  enemyHp : ℚ
  enemySp : ℚ
  hand : List CardSnap
  deck : List CardSnap
  discard : List CardSnap
  enemyHand : List CardSnap
  enemyDeck : List CardSnap
  enemyDiscard : List CardSnap
  activeEffects : Buckets
  onField : OnField
  prompts : List RetargetPrompt
  defendUsed : Bool
  message : String
deriving DecidableEq, Repr

/-- Outcome of one playTurn request: the no-op early return, the seed
early return, the not-enough-SP rejection, or the normal response. -/
inductive TurnOutcome
  | noop : TurnResp → TurnOutcome
  | seedResp : TurnResp → TurnOutcome
  | spError : TurnOutcome
  | normal : TurnResp → TurnOutcome
deriving DecidableEq, Repr

/-- Initial working state: derive player HP from vitality when the
incoming value is unusable, floor enemy HP at 1, load the ledger buckets
and cap the incoming field arrays at MAX_FIELD_SLOTS. -/
def initTurnState (inp : TurnInput) : TurnState :=
  let pVit := inp.playerStats.vitality
  let pHp := if inp.playerStats.hp ≤ 0 then
      max 1 ((if pVit == 0 then 1 else pVit) * 100)
    else inp.playerStats.hp
  let pStats := { inp.playerStats with hp := pHp }
  let eHp := max 1 inp.enemyStats.hp
  let eStats := { inp.enemyStats with hp := eHp }
  { playerStats := pStats,
    enemyStats := eStats,
    playerHp := pHp,
    playerSp := pStats.sp,
    enemyHp := eHp,
    enemySp := eStats.sp,
    hand := inp.hand, deck := inp.deck, discard := inp.discard,
    enemyHand := inp.enemyHand, enemyDeck := inp.enemyDeck,
    enemyDiscard := inp.enemyDiscard,
    buckets := { player := loadBucketSide inp.activeEffectsPlayer,
                 enemy := loadBucketSide inp.activeEffectsEnemy },
    onField := { player := inp.onFieldPlayer.take MAX_FIELD_SLOTS,
                 enemy := inp.onFieldEnemy.take MAX_FIELD_SLOTS },
    playerBuffDef := 0, enemyBuffDef := 0,
    message := "", defendUsed := false, prompts := [], stashMH := [],
    rng := inp.rng }

/-- Player on-field phase: tick the player's field cards (damaging the
enemy), recycle expired snapshots to the player deck, clamp any HP raise
back, then run the enemy-side Revive check. -/
def playerFieldPhase (st : TurnState) : TurnState :=
  let pf := processFieldHits .player st.onField st.playerStats st.enemyStats st.buckets
  let before := st.enemyHp
  let st1 := { st with onField := pf.onField, buckets := pf.buckets,
                       prompts := st.prompts ++ pf.prompts }
  let st2 := if pf.damageDone > 0 then
      { st1 with enemyHp := max 0 (st1.enemyHp - pf.damageDone) }
    else st1
  let st3 := if !pf.expired.isEmpty then
      { st2 with deck := st2.deck ++ pf.expired.map recycleCard }
    else st2
  let st4 := if st3.enemyHp > before then { st3 with enemyHp := before } else st3
  let rc := reviveCheck st4.enemyStats.vitality st4.enemyHp st4.buckets.enemy
  { st4 with enemyHp := rc.1, buckets := st4.buckets.set .enemy rc.2 }

/-- The player's selection resolved against the hand (the id form of
normalizeSelectedCards). -/
def resolveSelected (inp : TurnInput) (hand : List CardSnap) : List CardSnap :=
  inp.selectedCardIds.filterMap (fun iid => hand.find? (fun c => c.instanceId == iid))

/-- Instant-death step of one side's play: each per-card captured
Instant Death rolls (unless the defender's Ability Shield is active) and
forces the defender's HP to 0 on success. -/
def instantDeathStep (atkSide : Side) (atkTemp : Stats) (ctx : Ctx)
    (cards : List CardSnap) (defenderHp : ℚ) (rng : Rng) : ℚ × Rng :=
  cards.foldl (fun (acc : ℚ × Rng) card =>
    match alistGet (ctx.get atkSide).perCard card.instanceId with
    | none => acc
    | some per =>
      match per.instantDeath with
      | none => acc
      | some ab =>
        if (ctx.get atkSide.other).abilityShield.active then acc
        else
          let base := clamp (ab.activationChance + (ctx.get atkSide).chanceUp -
            (ctx.get atkSide.other).chanceDown) 0 100
          let finalChance := intMult base atkTemp.intelligence
          let (hit, rng1) := roll finalChance acc.2
          (if hit then 0 else acc.1, rng1)) (defenderHp, rng)

/-- Schedule block inside the player play branch: each played Multi-Hit
card becomes a FieldCard while slots remain. -/
def schedulePlayerMHInline (cards : List CardSnap) (onFieldPlayer : List FieldCard)
    (rng : Rng) : List FieldCard × Rng :=
  cards.foldl (fun (acc : List FieldCard × Rng) card =>
    if hasMultiHit card && decide (acc.1.length < MAX_FIELD_SLOTS) then
      let mk := makeFieldCard .player card acc.2
      match mk.1 with
      | some fc => (acc.1 ++ [fc], mk.2)
      | none => (acc.1, mk.2)
    else acc) (onFieldPlayer, rng)

/-- Player main action: frozen sides only get a message; a play resolves
abilities, instant death, SP, damage and field scheduling; skip and
defend adjust SP. An unaffordable play is rejected. -/
def playerMainAction (inp : TurnInput) (st : TurnState) : Except Unit TurnState :=
  let playedPlayerCards := resolveSelected inp st.hand
  let totalPlayerSpCost := (playedPlayerCards.map (fun c => c.spCost)).sum
  let playerFrozenPersist := sideFrozen st.buckets.player
  if playerFrozenPersist then
    .ok { st with message := "You are frozen and cannot act this turn." }
  else if inp.action == some "play" ||
      (actionFalsy inp.action && !playedPlayerCards.isEmpty) then
    if totalPlayerSpCost > st.playerSp then .error ()
    else
      let buffDef := (playedPlayerCards.map (fun c => c.defense)).sum
      let st := { st with playerBuffDef := st.playerBuffDef + buffDef }
      let ac1 := applyPersistentToContext .player st.buckets st.playerStats Ctx.fresh
      let ac2 := applyPersistentToContext .enemy st.buckets st.enemyStats ac1.2
      let playerTempStats := ac1.1
      let enemyTempStats := ac2.1
      let ph := applyAbilityPreDamagePhase playerTempStats enemyTempStats
        playedPlayerCards [] ac2.2 st.buckets .player st.rng
      let ctx := ph.ctx
      let idr := instantDeathStep .player playerTempStats ctx playedPlayerCards
        st.enemyHp ph.rng
      let rc1 := reviveCheck st.enemyStats.vitality idr.1 (ph.buckets.get .enemy)
      let buckets1 := ph.buckets.set .enemy rc1.2
      let playerSp1 := st.playerSp - totalPlayerSpCost
      let dm := playedDamageTotal .player playerTempStats enemyTempStats ctx
        ph.attackLinked st.enemyBuffDef playedPlayerCards idr.2
      let enemyHp1 := max 0 (rc1.1 - dm.1)
      let sch := schedulePlayerMHInline playedPlayerCards (st.onField.get .player) dm.2
      let message := if dm.1 > 0 then
          "You dealt " ++ toString (jsFloor dm.1) ++ " damage."
        else "No damage dealt this turn."
      let rc2 := reviveCheck st.enemyStats.vitality enemyHp1 (buckets1.get .enemy)
      .ok { st with
        playerSp := playerSp1,
        enemyHp := rc2.1,
        buckets := buckets1.set .enemy rc2.2,
        onField := st.onField.set .player sch.1,
        message := message,
        rng := sch.2 }
  else if inp.action == some "skip" then
    .ok { st with playerSp := min st.playerStats.maxSp (st.playerSp + 2),
                  message := "Skipped turn. +2 SP recovered." }
  else if inp.action == some "defend" then
    .ok { st with playerSp := min st.playerStats.maxSp (st.playerSp + 1),
                  defendUsed := true,
                  message := "Defended. +1 SP and damage received halved." }
  else .ok st

/-- Player pile update: on an exact play action the played cards leave
the hand (non-Multi-Hit ones to the deck bottom, Multi-Hit ones
stashed), skip returns the whole hand, defend keeps it; then the hand is
refilled and stashed Multi-Hit cards are scheduled to the field up to
capacity (overflow cards are appended to a rebound local the response
never reads, so they are dropped, mirroring the array-alias slip of the
source). -/
def playerPileUpdate (inp : TurnInput) (st : TurnState) : TurnState :=
  let pids := (resolveSelected inp st.hand).map (fun c => c.instanceId)
  let st1 :=
    if inp.action == some "play" then
      let played := st.hand.filter (fun c => pids.contains c.instanceId)
      let playedNoMH := played.filter (fun c => !hasMultiHit c)
      let playedWithMH := played.filter (fun c => hasMultiHit c)
      { st with hand := st.hand.filter (fun c => !(pids.contains c.instanceId)),
                deck := st.deck ++ playedNoMH,
                stashMH := playedWithMH }
    else if inp.action == some "defend" then st
    else if inp.action == some "skip" then
      { st with hand := [], deck := st.deck ++ st.hand }
    else st
  let dr := drawSimple HAND_SIZE st1.hand st1.deck
  let st2 := { st1 with hand := dr.1, deck := dr.2 }
  let existingIds := (st2.onField.get .player).map (fun f => f.instanceId)
  let fresh := st2.stashMH.filter (fun c => !(existingIds.contains c.instanceId))
  let capacity := (MAX_FIELD_SLOTS - (st2.onField.get .player).length : Int).toNat
  let toAdd := fresh.take capacity
  let added := toAdd.foldl (fun (acc : List FieldCard × Rng) c =>
    let mk := makeFieldCard .player c acc.2
    match mk.1 with
    | some fc => (acc.1 ++ [fc], mk.2)
    | none => (acc.1, mk.2)) (st2.onField.get .player, st2.rng)
  { st2 with onField := st2.onField.set .player added.1, rng := added.2 }

/-- Enemy field-scheduling walk: break once the enemy field is full,
skip already-fielded instance ids, and push each built FieldCard twice
(the duplicated push statement of the source). -/
def scheduleEnemyMH : List CardSnap → List FieldCard → List String → Rng →
    List FieldCard × Rng
  | [], onFieldEnemy, _, rng => (onFieldEnemy, rng)
  | card :: rest, onFieldEnemy, existing, rng =>
    if !hasMultiHit card then scheduleEnemyMH rest onFieldEnemy existing rng
    else if onFieldEnemy.length ≥ MAX_FIELD_SLOTS then (onFieldEnemy, rng)
    else if existing.contains card.instanceId then
      scheduleEnemyMH rest onFieldEnemy existing rng
    else
      let mk := makeFieldCard .enemy card rng
      match mk.1 with
      | some fc =>
        scheduleEnemyMH rest (onFieldEnemy ++ [fc, fc])
          (existing ++ [card.instanceId]) mk.2
      | none => scheduleEnemyMH rest onFieldEnemy existing mk.2

/-- Enemy on-field tick against the player: field damage (with the
player-side Revive check nested under positive damage), expired-card
recycling to the enemy deck, and the HP-raise clamp. Runs only while the
enemy is alive. -/
def enemyFieldPhase (st : TurnState) : TurnState :=
  if st.enemyHp > 0 then
    let ef := processFieldHits .enemy st.onField st.enemyStats
      { st.playerStats with durability := st.playerStats.durability + st.playerBuffDef }
      st.buckets
    let before := st.playerHp
    let s1 := { st with onField := ef.onField, buckets := ef.buckets,
                        prompts := st.prompts ++ ef.prompts }
    let s2 :=
      if ef.damageDone > 0 then
        let hp1 := max 0 (s1.playerHp - ef.damageDone)
        let rc := reviveCheck s1.playerStats.vitality hp1 (s1.buckets.get .player)
        { s1 with playerHp := rc.1, buckets := s1.buckets.set .player rc.2 }
      else s1
    let s3 := if !ef.expired.isEmpty then
        { s2 with enemyDeck := s2.enemyDeck ++ ef.expired.map recycleCard }
      else s2
    if s3.playerHp > before then { s3 with playerHp := before } else s3
  else st

/-- Enemy play branch: mirrored pre-damage resolution, instant death with
the player-side Revive check, SP spend, the damage loop with NO Revive
check after it, the (double-pushing) field scheduling, and the pile
rotation with redraw. -/
def enemyPlayBranch (st1 : TurnState) (enemyPlayableCards : List CardSnap) : TurnState :=
  let ac1 := applyPersistentToContext .enemy st1.buckets st1.enemyStats Ctx.fresh
  let ac2 := applyPersistentToContext .player st1.buckets st1.playerStats ac1.2
  let enemyTempStats := ac1.1
  let playerTempStats := ac2.1
  let ph := applyAbilityPreDamagePhase enemyTempStats playerTempStats
    enemyPlayableCards [] ac2.2 st1.buckets .enemy st1.rng
  let ctx := ph.ctx
  let idr := instantDeathStep .enemy enemyTempStats ctx enemyPlayableCards
    st1.playerHp ph.rng
  let rc1 := reviveCheck st1.playerStats.vitality idr.1 (ph.buckets.get .player)
  let buckets1 := ph.buckets.set .player rc1.2
  let totalEnemySpCost := (enemyPlayableCards.map (fun c => c.spCost)).sum
  let enemySp1 := st1.enemySp - totalEnemySpCost
  let dm := playedDamageTotal .enemy enemyTempStats playerTempStats ctx
    ph.attackLinked st1.playerBuffDef enemyPlayableCards idr.2
  let playerHp1 := max 0 (rc1.1 - dm.1)
  let existingE := (st1.onField.get .enemy).map (fun f => f.instanceId)
  let sch := scheduleEnemyMH enemyPlayableCards (st1.onField.get .enemy) existingE dm.2
  let playedEnemyCardIds := enemyPlayableCards.map (fun c => c.instanceId)
  let enemyNonFieldIds := (enemyPlayableCards.filter (fun c => !hasMultiHit c)).map
    (fun c => c.instanceId)
  let toDeckE := st1.enemyHand.filter (fun c =>
    playedEnemyCardIds.contains c.instanceId && enemyNonFieldIds.contains c.instanceId)
  let enemyDeck1 := st1.enemyDeck ++ toDeckE
  let enemyHand1 := st1.enemyHand.filter (fun c =>
    !(playedEnemyCardIds.contains c.instanceId))
  let drw := drawUpToHand enemyHand1 enemyDeck1 st1.enemyDiscard [] HAND_SIZE sch.2
  { st1 with
    playerHp := playerHp1,
    buckets := buckets1,
    enemySp := enemySp1,
    onField := st1.onField.set .enemy sch.1,
    enemyHand := drw.1.1,
    enemyDeck := drw.1.2.1,
    enemyDiscard := drw.1.2.2,
    rng := drw.2 }

/-- Enemy hand rotation into the deck with redraw (as done for the
frozen, skip and defend branches; the discard pile is emptied first). -/
def enemyRotateHand (st : TurnState) : TurnState :=
  let drw := drawUpToHand [] (st.enemyDeck ++ st.enemyHand) [] [] HAND_SIZE st.rng
  { st with enemyHand := drw.1.1, enemyDeck := drw.1.2.1,
            enemyDiscard := drw.1.2.2, rng := drw.2 }

/-- Enemy phase: the enemy field tick, the AI decision (or a forced
freeze skip), then the mirrored play / frozen / skip / defend branches. -/
def enemyPhase (inp : TurnInput) (st0 : TurnState) : TurnState :=
  let st := { st0 with enemyBuffDef := 0 }
  let enemyFrozenPersist := sideFrozen st.buckets.enemy
  let stF := enemyFieldPhase st
  let dec :=
    if enemyFrozenPersist then (({ action := "frozen", cards := [] } : EnemyDecision), stF.rng)
    else chooseEnemyAction stF.enemyStats stF.enemySp stF.enemyHp
      (stF.enemyStats.vitality * 100) stF.enemyHand inp.aiConfig stF.rng
  let enemyAction := dec.1.action
  let enemyPlayableCards := dec.1.cards
  let stD := { stF with rng := dec.2 }
  if stD.enemyHp > 0 then
    if enemyAction == "play" && !enemyPlayableCards.isEmpty then
      let buffDef := (enemyPlayableCards.map (fun c => c.defense)).sum
      enemyPlayBranch { stD with enemyBuffDef := stD.enemyBuffDef + buffDef }
        enemyPlayableCards
    else if enemyAction == "frozen" then enemyRotateHand stD
    else if enemyAction == "skip" || enemyAction == "defend" then
      let sp1 := if enemyAction == "skip" then
          min stD.enemyStats.maxSp (stD.enemySp + 2)
        else min stD.enemyStats.maxSp (stD.enemySp + 1)
      enemyRotateHand { stD with enemySp := sp1 }
    else stD
  else stD

/-- Early (noop / seed) response: the current values, no clamping and no
duration tick. -/
def respondEarly (st : TurnState) : TurnResp :=
  { playerHp := st.playerHp, playerSp := st.playerSp,
    enemyHp := st.enemyHp, enemySp := st.enemySp,
    hand := st.hand, deck := st.deck, discard := st.discard,
    enemyHand := st.enemyHand, enemyDeck := st.enemyDeck,
    enemyDiscard := st.enemyDiscard,
    activeEffects := st.buckets, onField := st.onField,
    prompts := st.prompts, defendUsed := st.defendUsed, message := st.message }

/-- Normal response: clamp the four vitals at 0, run the end-of-round
duration tick, then assemble the payload. -/
def respondNormal (st : TurnState) : TurnResp :=
  let playerHp := max 0 st.playerHp
  let playerSp := max 0 st.playerSp
  let enemyHp := max 0 st.enemyHp
  let enemySp := max 0 st.enemySp
  let ticked : Buckets :=
    { player := tickBuckets st.buckets.player, enemy := tickBuckets st.buckets.enemy }
  { playerHp := playerHp, playerSp := playerSp,
    enemyHp := enemyHp, enemySp := enemySp,
    hand := st.hand, deck := st.deck, discard := st.discard,
    enemyHand := st.enemyHand, enemyDeck := st.enemyDeck,
    enemyDiscard := st.enemyDiscard,
    activeEffects := ticked, onField := st.onField,
    prompts := st.prompts, defendUsed := st.defendUsed, message := st.message }

/-- Model of the playTurn controller core: player field phase, the noop
early return, the player main action (with the SP rejection), the pile
update and field scheduling, the seed early return (explicit seed flag
or enemy piles that had to be bootstrapped), the enemy phase, and the
clamped, ticked normal response. -/
def playTurnCore (inp : TurnInput) : TurnOutcome :=
  let st0 := initTurnState inp
  let st1 := playerFieldPhase st0
  if actionFalsy inp.action && inp.selectedCardIds.isEmpty then .noop (respondEarly st1)
  else
    match playerMainAction inp st1 with
    | .error _ => .spError
    | .ok st2 =>
      let st3 := playerPileUpdate inp st2
      if inp.seed || (inp.enemyHand.isEmpty && inp.enemyDeck.isEmpty) then
        .seedResp (respondEarly st3)
      else
        let st4 := enemyPhase inp st3
        .normal (respondNormal st4)

/-- The normal-branch response of an outcome, when present. -/
def TurnOutcome.normalResp : TurnOutcome → Option TurnResp
  | .normal r => some r
  | _ => none

/-- Damage formula exactly as the specification words it. -/
def specNetDamage (potency typePower attackPower durability defenseBonus oppPower : ℚ)
    (bypass : Bool) : ℚ :=
  max ((potency + typePower) * attackPower -
    ((if bypass then 0 else durability + defenseBonus) * oppPower) / 2) 0

/-- Baseline stats shared by the concrete scenarios (the engine's own
default block). -/
def baseStats : Stats :=
  { attackPower := 10, supernaturalPower := 10, physicalPower := 10, durability := 10,
    vitality := 1, intelligence := 1, speed := 5, sp := 3, maxSp := 5, hp := 100 }

/-- Neutral AI config shared by the concrete scenarios (the engine's own
fallback block). -/
def defaultAiConfig : AiConfig :=
  { cardPriority := [], combos := [], spSkipThreshold := 3 / 10,
    defendHpThreshold := 1 / 2, weights := { play := 1, skip := 1, defend := 1 },
    greedChance := none }

/-- Harmless enemy filler card used by scenarios that keep the enemy busy. -/
def dummyE : CardSnap :=
  { id := "ed", instanceId := "e5", name := "E", spCost := 0, potency := 0,
    defense := 0, types := [], abilities := [] }

/-- All-zero response record (used only as a getD fallback). -/
def respDefault : TurnResp :=
  { playerHp := 0, playerSp := 0, enemyHp := 0, enemySp := 0,
    hand := [], deck := [], discard := [], enemyHand := [], enemyDeck := [],
    enemyDiscard := [], activeEffects := { player := [], enemy := [] },
    onField := { player := [], enemy := [] }, prompts := [], defendUsed := false,
    message := "" }

/-- Concrete scenario card of the specification: potency 5, type
Physical, no abilities. -/
def c1Card : CardSnap :=
  { id := "c1", instanceId := "p1", name := "Strike", spCost := 0, potency := 5,
    defense := 0, types := ["Physical"], abilities := [] }

/-- Concrete attacker of the scenario: attackPower 10, physicalPower 8. -/
def c1Attacker : Stats :=
  { attackPower := 10, supernaturalPower := 0, physicalPower := 8, durability := 0,
    vitality := 1, intelligence := 0, speed := 5, sp := 5, maxSp := 5, hp := 100 }

/-- Concrete defender of the scenario: durability 4, physicalPower 6. -/
def c1Defender : Stats :=
  { attackPower := 0, supernaturalPower := 0, physicalPower := 6, durability := 4,
    vitality := 1, intelligence := 0, speed := 5, sp := 5, maxSp := 5, hp := 100 }

/-- Concrete AI config of the C9 counterexample: one winning combo, play
weight 0 and a heavy skip weight. -/
def c9Cfg : AiConfig :=
  { cardPriority := [],
    combos := [{ cards := ["a"], priority := 5 }],
    spSkipThreshold := 9 / 10,
    defendHpThreshold := 1 / 2,
    weights := { play := 0, skip := 100, defend := 0 },
    greedChance := none }

/-- Concrete hand of the C9 counterexample. -/
def c9Hand : List CardSnap :=
  [{ id := "a", instanceId := "1", name := "A", spCost := 1, potency := 1,
     defense := 0, types := ["Physical"], abilities := [] },
   { id := "b", instanceId := "2", name := "B", spCost := 1, potency := 1,
     defense := 0, types := ["Physical"], abilities := [] }]

/-- Concrete malformed snapshot of the C8 counterexample: no card
payload, 2 turns remaining. -/
def c8Malformed : FieldCard :=
  { instanceId := "m1", owner := .enemy, card := none, turnsRemaining := 2,
    link := "attack",
    targeting := { mode := "lock", scope := "character" },
    targetRef := { kind := "character", side := none, instanceId := none },
    scheduleState := { turnIndex := 0, dnAuto := false, dnTurns := none, childTurns := [] } }

/-- Attacking enemy card of the C3 counterexample. -/
def c3Claw : CardSnap :=
  { id := "c1", instanceId := "e1", name := "Claw", spCost := 0, potency := 5,
    defense := 0, types := ["Physical"], abilities := [] }

/-- C3 counterexample turn request: the player skips while holding a
Revive(power 50, remaining 3); the enemy AI plays Claw for 130 damage,
lethal against 100 player HP. -/
def c3Input : TurnInput :=
  { action := some "skip", selectedCardIds := [], seed := false,
    playerStats := { baseStats with durability := 0, sp := 5 },
    enemyStats := { baseStats with physicalPower := 8, sp := 5, hp := 50 },
    hand := [], deck := [], discard := [],
    enemyHand := [c3Claw], enemyDeck := [], enemyDiscard := [],
    activeEffectsPlayer :=
      [{ type := "Revive", target := none, power := 50, precedence := 0, remaining := 3 }],
    activeEffectsEnemy := [],
    onFieldPlayer := [], onFieldEnemy := [],
    aiConfig := { defaultAiConfig with cardPriority := [{ cardId := "c1", priority := 1 }] },
    rng := [9 / 10, 1 / 2] }

/-- Card payload of the C4 counterexample's enemy field card. -/
def c4FieldPayload : CardSnap :=
  { id := "fb", instanceId := "", name := "Barrage", spCost := 0, potency := 5,
    defense := 0, types := ["Physical"], abilities := [] }

/-- Enemy field card of the C4 counterexample: a live non-bypassing
multi-hit snapshot (dnAuto false, no DN turns). -/
def c4FieldCard : FieldCard :=
  { instanceId := "f1", owner := .enemy, card := some c4FieldPayload,
    turnsRemaining := 2, link := "attack",
    targeting := { mode := "lock", scope := "character" },
    targetRef := { kind := "character", side := none, instanceId := none },
    scheduleState := { turnIndex := 0, dnAuto := false, dnTurns := none, childTurns := [] } }

/-- C4 counterexample turn request: the player skips while holding an
active Guard (remaining 2); the frozen enemy's on-field card still hits
for 118. -/
def c4Input : TurnInput :=
  { action := some "skip", selectedCardIds := [], seed := false,
    playerStats := { baseStats with durability := 4, physicalPower := 6, hp := 200, sp := 5 },
    enemyStats := { baseStats with physicalPower := 8, sp := 5 },
    hand := [], deck := [], discard := [],
    enemyHand := [dummyE], enemyDeck := [], enemyDiscard := [],
    activeEffectsPlayer :=
      [{ type := "Guard", target := none, power := 0, precedence := 5, remaining := 2 }],
    activeEffectsEnemy :=
      [{ type := "Freeze", target := none, power := 0, precedence := 0, remaining := 1 }],
    onFieldPlayer := [], onFieldEnemy := [c4FieldCard],
    aiConfig := defaultAiConfig,
    rng := [] }

/-- A primary Multi-Hit ability with three turns and no schedule (its
activation chance 0 keeps it out of the pre-damage queue; scheduling
ignores the chance). -/
def mhAbility3 : Ability :=
  { type := "Multi-Hit", key := "mh1", power := 0, duration := 0, activationChance := 0,
    precedence := 0, linkedTo := [], legacyTargetCode := none,
    multiHit := some
      { turns := 3, link := "attack", overlap := "inherit",
        schedule := none, targetingMode := none, targetingScope := none },
    durabilityNegation := { auto := true, schedule := none } }

/-- The multi-hit card the C5 enemy plays. -/
def c5Bomb : CardSnap :=
  { id := "me", instanceId := "e9", name := "Bomb", spCost := 0, potency := 0,
    defense := 0, types := [], abilities := [mhAbility3] }

/-- Harmless payload of the two field cards already on the C5 enemy
field. -/
def c5Payload : CardSnap :=
  { id := "fx", instanceId := "", name := "Orb", spCost := 0, potency := 0,
    defense := 0, types := [], abilities := [] }

/-- A live harmless enemy field card with the given instance id. -/
def c5Fc (iid : String) : FieldCard :=
  { instanceId := iid, owner := .enemy, card := some c5Payload,
    turnsRemaining := 5, link := "attack",
    targeting := { mode := "lock", scope := "character" },
    targetRef := { kind := "character", side := none, instanceId := none },
    scheduleState := { turnIndex := 0, dnAuto := false, dnTurns := none, childTurns := [] } }

/-- C5 failing turn request: the enemy already fields two cards and its
AI plays one multi-hit card (attackPower 0 keeps all damage at 0). -/
def c5Input : TurnInput :=
  { action := some "skip", selectedCardIds := [], seed := false,
    playerStats := { baseStats with sp := 5 },
    enemyStats := { baseStats with attackPower := 0, sp := 5 },
    hand := [], deck := [], discard := [],
    enemyHand := [c5Bomb], enemyDeck := [], enemyDiscard := [],
    activeEffectsPlayer := [], activeEffectsEnemy := [],
    onFieldPlayer := [], onFieldEnemy := [c5Fc "f1", c5Fc "f2"],
    aiConfig := { defaultAiConfig with cardPriority := [{ cardId := "me", priority := 1 }] },
    rng := [9 / 10] }

/-- The multi-hit card the frozen C6 player submits. -/
def c6MHCard : CardSnap :=
  { id := "pm", instanceId := "p1", name := "Volley", spCost := 2, potency := 0,
    defense := 0, types := [], abilities := [mhAbility3] }

/-- C6 counterexample turn request: the player is frozen (remaining 2)
and submits a play of one multi-hit card; the enemy is frozen too. -/
def c6Input : TurnInput :=
  { action := some "play", selectedCardIds := ["p1"], seed := false,
    playerStats := { baseStats with sp := 5 },
    enemyStats := { baseStats with sp := 5 },
    hand := [c6MHCard], deck := [], discard := [],
    enemyHand := [dummyE], enemyDeck := [], enemyDiscard := [],
    activeEffectsPlayer :=
      [{ type := "Freeze", target := none, power := 0, precedence := 0, remaining := 2 }],
    activeEffectsEnemy :=
      [{ type := "Freeze", target := none, power := 0, precedence := 0, remaining := 1 }],
    onFieldPlayer := [], onFieldEnemy := [],
    aiConfig := defaultAiConfig, rng := [] }

/-- Plain turn request of the C10 witness: the player skips, the enemy
is frozen. -/
def c10Input : TurnInput :=
  { action := some "skip", selectedCardIds := [], seed := false,
    playerStats := { baseStats with sp := 5 },
    enemyStats := { baseStats with sp := 5 },
    hand := [], deck := [], discard := [],
    enemyHand := [dummyE], enemyDeck := [], enemyDiscard := [],
    activeEffectsPlayer := [],
    activeEffectsEnemy :=
      [{ type := "Freeze", target := none, power := 0, precedence := 0, remaining := 1 }],
    onFieldPlayer := [], onFieldEnemy := [],
    aiConfig := defaultAiConfig, rng := [] }

/-- Working state of the C3 witness: the player is about to play Strike
(130 damage) against a 100 HP enemy with no Revive. -/
def c3wSt : TurnState :=
  { playerStats := { baseStats with physicalPower := 8, sp := 5 },
    enemyStats := { baseStats with durability := 0 },
    playerHp := 100, playerSp := 5, enemyHp := 100, enemySp := 5,
    hand := [c1Card], deck := [], discard := [],
    enemyHand := [dummyE], enemyDeck := [], enemyDiscard := [],
    buckets := { player := [], enemy := [] },
    onField := { player := [], enemy := [] },
    playerBuffDef := 0, enemyBuffDef := 0, message := "", defendUsed := false,
    prompts := [], stashMH := [], rng := [] }

/-- Request of the C3 witness: play the Strike card. -/
def c3wInp : TurnInput :=
  { action := some "play", selectedCardIds := ["p1"], seed := false,
    playerStats := { baseStats with physicalPower := 8, sp := 5 },
    enemyStats := { baseStats with durability := 0 },
    hand := [c1Card], deck := [], discard := [],
    enemyHand := [dummyE], enemyDeck := [], enemyDiscard := [],
    activeEffectsPlayer := [], activeEffectsEnemy := [],
    onFieldPlayer := [], onFieldEnemy := [],
    aiConfig := defaultAiConfig, rng := [] }

/-! Claim theorems. -/

/-- Every contribution of the damage loop is nonnegative. -/
theorem cardNetDamage_nonneg (card : CardSnap) (atkTemp defTemp : Stats)
    (bypassGuard : Bool) (defBuffDef : ℚ) :
    0 ≤ cardNetDamage card atkTemp defTemp bypassGuard defBuffDef := by
  unfold cardNetDamage
  exact le_max_right _ _

/-- One damage-loop step never lowers the running total. -/
theorem playedDamageStep_mono (atkSide : Side) (atkTemp defTemp : Stats) (ctx : Ctx)
    (attackLinked : List (String × List ALEntry)) (defBuffDef : ℚ)
    (acc : ℚ × Rng) (card : CardSnap) :
    acc.1 ≤ (playedDamageStep atkSide atkTemp defTemp ctx attackLinked defBuffDef acc card).1 := by
  unfold playedDamageStep
  dsimp only
  split
  · exact le_refl _
  · split
    · exact le_refl _
    · split
      · exact le_refl _
      · have h := cardNetDamage_nonneg card atkTemp defTemp
          (playedCardBypass (ctx.get atkSide) attackLinked card) defBuffDef
        simp only
        linarith

/-- The damage-loop fold never lowers the running total. -/
theorem playedDamageFold_mono (atkSide : Side) (atkTemp defTemp : Stats) (ctx : Ctx)
    (attackLinked : List (String × List ALEntry)) (defBuffDef : ℚ)
    (cards : List CardSnap) (acc : ℚ × Rng) :
    acc.1 ≤ (cards.foldl
      (playedDamageStep atkSide atkTemp defTemp ctx attackLinked defBuffDef) acc).1 := by
  induction cards generalizing acc with
  | nil => exact le_refl _
  | cons c rest ih =>
    calc acc.1
        ≤ (playedDamageStep atkSide atkTemp defTemp ctx attackLinked defBuffDef acc c).1 :=
          playedDamageStep_mono atkSide atkTemp defTemp ctx attackLinked defBuffDef acc c
      _ ≤ _ := ih _

/-- C1: a played attacking card's damage contribution follows
max((potency + typeMatchedPower) * attackPower -
((durability + defenseBonus) * typeMatchedOpposingPower) / 2, 0), with
the durability term zeroed under a bypass flag (stated for Physical cards
with the physical pair and for non-Physical Supernatural cards with the
supernatural pair); contributions and the per-turn damage sum are never
negative; and the concrete scenario (potency 5, attackPower 10, Physical,
physicalPower 8 versus durability 4, physicalPower 6, no effects) nets
118 from raw 130 and effective defense 12. -/
theorem c1_damage_formula
    (card : CardSnap) (atkTemp defTemp : Stats) (bypassGuard : Bool) (defBuffDef : ℚ)
    (atkSide : Side) (ctx : Ctx) (attackLinked : List (String × List ALEntry))
    (cards : List CardSnap) (rng : Rng)
    (hphys : card.types.contains "Physical" = true) :
    (cardNetDamage card atkTemp defTemp bypassGuard defBuffDef =
      specNetDamage card.potency atkTemp.physicalPower atkTemp.attackPower
        defTemp.durability defBuffDef defTemp.physicalPower bypassGuard) ∧
    (∀ card2 : CardSnap, card2.types.contains "Physical" = false →
      cardNetDamage card2 atkTemp defTemp bypassGuard defBuffDef =
      specNetDamage card2.potency atkTemp.supernaturalPower atkTemp.attackPower
        defTemp.durability defBuffDef defTemp.supernaturalPower bypassGuard) ∧
    (0 ≤ cardNetDamage card atkTemp defTemp bypassGuard defBuffDef) ∧
    (0 ≤ (playedDamageTotal atkSide atkTemp defTemp ctx attackLinked defBuffDef
      cards rng).1) ∧
    (cardNetDamage c1Card c1Attacker c1Defender false 0 = 118 ∧
     (c1Card.potency + c1Attacker.physicalPower) * c1Attacker.attackPower = 130 ∧
     (c1Defender.durability + 0) * c1Defender.physicalPower / 2 = 12) := by
  refine ⟨?_, ?_, ?_, ?_, ?_, ?_, ?_⟩
  · simp only [cardNetDamage, specNetDamage, getTypes, hphys, eq_self_iff_true, if_true]
  · intro card2 h2
    simp only [cardNetDamage, specNetDamage, getTypes, h2, Bool.false_eq_true, if_false]
  · exact cardNetDamage_nonneg card atkTemp defTemp bypassGuard defBuffDef
  · exact playedDamageFold_mono atkSide atkTemp defTemp ctx attackLinked defBuffDef cards (0, rng)
  · decide
  · decide
  · decide

/-- Witness for c1_damage_formula at the specification's own scenario. -/
theorem c1_damage_formula_witness :
    c1Card.types.contains "Physical" = true ∧
    cardNetDamage c1Card c1Attacker c1Defender false 0 =
      specNetDamage c1Card.potency c1Attacker.physicalPower c1Attacker.attackPower
        c1Defender.durability 0 c1Defender.physicalPower false :=
  ⟨by decide,
   (c1_damage_formula c1Card c1Attacker c1Defender false 0 .player Ctx.fresh [] [] []
     (by decide)).1⟩

/-- Keys of a bucket are unchanged by a key-preserving in-place update. -/
theorem bucketSetFirst_keys (b : Bucket) (k : String)
    (f : PersistentEffect → PersistentEffect)
    (hf : ∀ e, (f e).key = e.key) :
    (bucketSetFirst b k f).map PersistentEffect.key = b.map PersistentEffect.key := by
  induction b with
  | nil => rfl
  | cons e rest ih =>
    unfold bucketSetFirst
    by_cases h : e.key == k
    · simp [h, hf]
    · simp [h, ih]

/-- An in-place update with a key-preserving function is observed by
bucketGet at the updated key. -/
theorem bucketGet_bucketSetFirst (b : Bucket) (k : String)
    (f : PersistentEffect → PersistentEffect)
    (hf : ∀ e, (f e).key = e.key) :
    bucketGet (bucketSetFirst b k f) k = (bucketGet b k).map f := by
  induction b with
  | nil => rfl
  | cons e rest ih =>
    unfold bucketSetFirst bucketGet
    by_cases h : e.key == k
    · simp [List.find?, hf, h]
    · simp only [h]
      unfold bucketGet at ih
      simp [List.find?, h, ih]

/-- A bucket miss means no stored entry holds the key. -/
theorem bucketGet_none_not_mem (b : Bucket) (k : String)
    (h : bucketGet b k = none) :
    ∀ e ∈ b, e.key ≠ k := by
  intro e he
  unfold bucketGet at h
  rw [List.find?_eq_none] at h
  have := h e he
  simpa using this

/-- C2 (amended): on an existing (type, target) key the upsert REPLACES
the stored power and resets remaining to max(duration, 0) — never a sum
of old and new durations — while the stored precedence becomes the MAX
of the old and new precedences (not the new value); and the bucket keeps
at most one entry per key. -/
theorem c2_upsert_replace :
    (∀ (b : Bucket) (entry : UpsertEntry) (old : PersistentEffect),
      bucketGet b (effKey entry.type entry.target) = some old →
      bucketGet (upsertPersistentEffect b entry) (effKey entry.type entry.target) =
        some { old with power := entry.power,
                        precedence := max old.precedence entry.precedence,
                        remaining := max entry.duration 0 }) ∧
    (∀ (b : Bucket) (entry : UpsertEntry),
      (b.map PersistentEffect.key).Nodup →
      ((upsertPersistentEffect b entry).map PersistentEffect.key).Nodup) := by
  constructor
  · intro b entry old hold
    have hf : ∀ e : PersistentEffect,
        (({ e with power := entry.power,
                   precedence := max e.precedence entry.precedence,
                   remaining := max entry.duration 0 } : PersistentEffect)).key = e.key := by
      intro e
      rfl
    simp only [upsertPersistentEffect, hold]
    rw [bucketGet_bucketSetFirst b _ _ hf, hold]
    rfl
  · intro b entry hnd
    cases hget : bucketGet b (effKey entry.type entry.target) with
    | some old =>
      have hf : ∀ e : PersistentEffect,
          (({ e with power := entry.power,
                     precedence := max e.precedence entry.precedence,
                     remaining := max entry.duration 0 } : PersistentEffect)).key = e.key := by
        intro e
        rfl
      simp only [upsertPersistentEffect, hget]
      rw [bucketSetFirst_keys b _ _ hf]
      exact hnd
    | none =>
      have hmem := bucketGet_none_not_mem b _ hget
      simp only [upsertPersistentEffect, hget]
      rw [List.map_append]
      rw [List.nodup_append]
      refine ⟨hnd, by simp, ?_⟩
      intro x hx
      simp only [List.mem_map] at hx
      obtain ⟨e, he, hkey⟩ := hx
      simp only [List.map_cons, List.map_nil, List.mem_singleton]
      intro hcontra
      have : e.key = effKey entry.type entry.target := by
        rw [hkey, hcontra]
        rfl
      exact hmem e he this

/-- Witness for c2_upsert_replace: a refreshed Guard entry keeps the max
precedence, takes the new power and the new duration. -/
theorem c2_upsert_replace_witness :
    bucketGet (upsertPersistentEffect
      [{ type := "Guard", target := none, power := 1, precedence := 5, remaining := 3 }]
      { type := "Guard", target := none, power := 7, precedence := 3, duration := 2 })
      "Guard" =
      some { type := "Guard", target := none, power := 7, precedence := 5, remaining := 2 } :=
  c2_upsert_replace.1
    [{ type := "Guard", target := none, power := 1, precedence := 5, remaining := 3 }]
    { type := "Guard", target := none, power := 7, precedence := 3, duration := 2 }
    { type := "Guard", target := none, power := 1, precedence := 5, remaining := 3 }
    (by decide)

/-- The negation walk keeps exactly the qualifying entries until the
budget runs out: it equals take-budget of the filtered list. -/
theorem negLoop_eq_take (p : ℚ) (l : List PersistentEffect) (b : Int) :
    negLoop p l b =
      (l.filter (fun e => decide (e.precedence < p))).take b.toNat := by
  induction l generalizing b with
  | nil => simp [negLoop]
  | cons e rest ih =>
    unfold negLoop
    by_cases hb : b ≤ 0
    · have h0 : b.toNat = 0 := Int.toNat_of_nonpos hb
      simp [hb, h0]
    · by_cases hq : e.precedence < p
      · rw [if_neg hb, if_pos hq]
        rw [List.filter_cons_of_pos (by simpa using hq)]
        have hbn : b.toNat = (b - 1).toNat + 1 := by omega
        rw [hbn, List.take_succ_cons, ih]
      · rw [if_neg hb, if_neg hq]
        rw [List.filter_cons_of_neg (by simpa using hq), ih]

/-- Elements picked by the negation walk are qualifying elements of the
walked list. -/
theorem negLoop_mem (p : ℚ) (l : List PersistentEffect) (b : Int)
    (x : PersistentEffect) (hx : x ∈ negLoop p l b) :
    x ∈ l ∧ x.precedence < p := by
  rw [negLoop_eq_take] at hx
  have hf := (List.take_sublist _ _).subset hx
  have := List.mem_filter.mp hf
  exact ⟨this.1, by simpa using this.2⟩

/-- Deleting a key can drop at most one entry. -/
theorem bucketDelete_length (b : Bucket) (k : String) :
    b.length ≤ (bucketDelete b k).length + 1 := by
  induction b with
  | nil => simp [bucketDelete]
  | cons e rest ih =>
    unfold bucketDelete List.eraseP
    by_cases h : e.key == k
    · simp [h]
    · simp only [h]
      simp only [Bool.false_eq_true, cond_false, List.length_cons]
      unfold bucketDelete at ih
      omega

/-- A surviving entry of a delete was in the bucket. -/
theorem bucketDelete_subset (b : Bucket) (k : String) :
    ∀ x ∈ bucketDelete b k, x ∈ b := by
  intro x hx
  exact (List.eraseP_sublist b).subset hx

/-- An entry whose key is not deleted survives a delete. -/
theorem mem_bucketDelete_of_ne (b : Bucket) (k : String) (x : PersistentEffect)
    (hx : x ∈ b) (hne : x.key ≠ k) : x ∈ bucketDelete b k := by
  induction b with
  | nil => cases hx
  | cons e rest ih =>
    unfold bucketDelete List.eraseP
    by_cases h : e.key == k
    · simp only [h, cond_true]
      rcases List.mem_cons.mp hx with rfl | hm
      · exact absurd (by simpa using h) hne
      · exact hm
    · simp only [h, Bool.false_eq_true, cond_false]
      rcases List.mem_cons.mp hx with rfl | hm
      · exact List.mem_cons_self _ _
      · exact List.mem_cons_of_mem _ (ih hm)

/-- Folding deletes keeps every entry whose key is not among the deleted
entries' keys. -/
theorem foldl_bucketDelete_mem (ts : List PersistentEffect) (b : Bucket)
    (x : PersistentEffect) (hx : x ∈ b)
    (hne : ∀ t ∈ ts, x.key ≠ t.key) :
    x ∈ ts.foldl (fun acc e => bucketDelete acc e.key) b := by
  induction ts generalizing b with
  | nil => exact hx
  | cons t rest ih =>
    simp only [List.foldl_cons]
    exact ih _ (mem_bucketDelete_of_ne b t.key x hx (hne t (List.mem_cons_self _ _)))
      (fun u hu => hne u (List.mem_cons_of_mem _ hu))

/-- Folding deletes drops at most one entry per deleted key. -/
theorem foldl_bucketDelete_length (ts : List PersistentEffect) (b : Bucket) :
    b.length ≤ (ts.foldl (fun acc e => bucketDelete acc e.key) b).length + ts.length := by
  induction ts generalizing b with
  | nil => simp
  | cons t rest ih =>
    simp only [List.foldl_cons, List.length_cons]
    have h1 := bucketDelete_length b t.key
    have h2 := ih (bucketDelete b t.key)
    omega

/-- Stable ascending insertion yields a permutation. -/
theorem insertByLt_perm {α : Type} (keyf : α → ℚ) (x : α) (l : List α) :
    (insertByLt keyf x l).Perm (x :: l) := by
  induction l with
  | nil => exact List.Perm.refl _
  | cons y rest ih =>
    unfold insertByLt
    by_cases h : keyf x < keyf y
    · rw [if_pos h]
    · rw [if_neg h]
      exact (ih.cons y).trans (List.Perm.swap x y rest)

/-- The stable ascending sort is a permutation of its input. -/
theorem sortByLt_perm {α : Type} (keyf : α → ℚ) (l : List α) :
    (sortByLt keyf l).Perm l := by
  have main : ∀ (l acc : List α),
      (l.foldl (fun a x => insertByLt keyf x a) acc).Perm (acc ++ l) := by
    intro l
    induction l with
    | nil => intro acc; simp
    | cons x rest ih =>
      intro acc
      simp only [List.foldl_cons]
      have h1 := ih (insertByLt keyf x acc)
      have h2 := (insertByLt_perm keyf x acc).append_right rest
      have h3 : ((x :: acc) ++ rest).Perm (acc ++ x :: rest) := List.perm_middle.symm
      exact h1.trans (h2.trans h3)
  simpa using main l []

/-- Stable ascending insertion preserves sortedness by the key. -/
theorem insertByLt_pairwise {α : Type} (keyf : α → ℚ) (x : α) (l : List α)
    (hl : List.Pairwise (fun a b => keyf a ≤ keyf b) l) :
    List.Pairwise (fun a b => keyf a ≤ keyf b) (insertByLt keyf x l) := by
  induction l with
  | nil => simp [insertByLt]
  | cons y rest ih =>
    unfold insertByLt
    rcases List.pairwise_cons.mp hl with ⟨hy, hrest⟩
    by_cases h : keyf x < keyf y
    · rw [if_pos h]
      refine List.pairwise_cons.mpr ⟨?_, hl⟩
      intro a ha
      rcases List.mem_cons.mp ha with rfl | hm
      · exact le_of_lt h
      · exact le_trans (le_of_lt h) (hy a hm)
    · rw [if_neg h]
      refine List.pairwise_cons.mpr ⟨?_, ih hrest⟩
      intro a ha
      have hmem := ((insertByLt_perm keyf x rest).mem_iff).mp ha
      rcases List.mem_cons.mp hmem with rfl | hm
      · exact le_of_not_lt h
      · exact hy a hm

/-- The stable ascending sort is sorted by the key. -/
theorem sortByLt_pairwise {α : Type} (keyf : α → ℚ) (l : List α) :
    List.Pairwise (fun a b => keyf a ≤ keyf b) (sortByLt keyf l) := by
  have main : ∀ (l acc : List α),
      List.Pairwise (fun a b => keyf a ≤ keyf b) acc →
      List.Pairwise (fun a b => keyf a ≤ keyf b)
        (l.foldl (fun a x => insertByLt keyf x a) acc) := by
    intro l
    induction l with
    | nil => intro acc h; simpa using h
    | cons x rest ih =>
      intro acc h
      simp only [List.foldl_cons]
      exact ih _ (insertByLt_pairwise keyf x acc h)
  exact main l [] List.Pairwise.nil

/-- C7: a pending Ability Negation success with positive power removes at
most clamp(floor(power), 1, 3) of the target ledger's entries, removes
only entries of strictly lower precedence, removes them lowest
precedence first (the removed list is the budget-long prefix of the
ascending-precedence view restricted to qualifying entries), and the
target side's still-pending abilities below the strongest pending
negation precedence are dropped; the applyNegation operation is
side-parametric and the pre-damage phase runs it for both sides. -/
theorem c7_ability_negation (ab : Ability) (bk : Bucket)
    (hpow : 0 < ab.power)
    (hnd : (bk.map PersistentEffect.key).Nodup) :
    (bk.length ≤ (negateOnce bk ab).length + (negBudget ab.power).toNat) ∧
    (negBudget ab.power = min 3 (max 1 ab.power.floor)) ∧
    (∀ e ∈ bk, e ∉ negateOnce bk ab → e.precedence < ab.precedence) ∧
    (negLoop ab.precedence (sortByLt (fun e => e.precedence) bk) (negBudget ab.power) =
      ((sortByLt (fun e => e.precedence) bk).filter
        (fun e => decide (e.precedence < ab.precedence))).take (negBudget ab.power).toNat) ∧
    (List.Pairwise (fun a b => a.precedence ≤ b.precedence)
      (sortByLt (fun e => e.precedence) bk)) ∧
    ((sortByLt (fun e => e.precedence) bk).Perm bk) ∧
    (∀ (owner target : Side) (s : PrePhase),
      ¬((s.pending owner).filter (fun q =>
        q.ability.type == "Ability Negation" && decide (q.ability.power > 0))).isEmpty →
      (applyNegation owner target s).pending target =
        (s.pending target).filter (fun e => decide (e.ability.precedence ≥
          listMax (((s.pending owner).filter (fun q =>
            q.ability.type == "Ability Negation" && decide (q.ability.power > 0))).map
            (fun q => q.ability.precedence))))) := by
  refine ⟨?_, rfl, ?_, negLoop_eq_take _ _ _, sortByLt_pairwise _ _, sortByLt_perm _ _, ?_⟩
  · simp only [negateOnce]
    have h1 := foldl_bucketDelete_length
      (negLoop ab.precedence (sortByLt (fun e => e.precedence) bk) (negBudget ab.power)) bk
    have h2 : (negLoop ab.precedence (sortByLt (fun e => e.precedence) bk)
        (negBudget ab.power)).length ≤ (negBudget ab.power).toNat := by
      rw [negLoop_eq_take]
      exact List.length_take_le _ _
    omega
  · intro e he hnot
    simp only [negateOnce] at hnot
    by_cases hkey : ∀ t ∈ negLoop ab.precedence (sortByLt (fun x => x.precedence) bk)
        (negBudget ab.power), e.key ≠ t.key
    · exact absurd (foldl_bucketDelete_mem _ bk e he hkey) hnot
    · push_neg at hkey
      obtain ⟨t, ht, hkeq⟩ := hkey
      obtain ⟨htmem, htlt⟩ := negLoop_mem _ _ _ t ht
      have htbk : t ∈ bk := (sortByLt_perm (fun x => x.precedence) bk).subset htmem
      have : e = t := List.inj_on_of_nodup_map hnd he htbk hkeq
      rw [this]
      exact htlt
  · intro owner target s hne
    simp only [applyNegation]
    rw [if_neg hne]
    cases target with
    | player => cases owner <;> rfl
    | enemy => cases owner <;> rfl

/-- Witness for c7_ability_negation: the specification's own scenario, a
negation of power 2 and precedence 5 against a three-entry ledger. -/
theorem c7_ability_negation_witness :
    (0 : ℚ) < 2 ∧
    ([({ type := "Lucky", target := none, power := 1, precedence := 1, remaining := 2 } :
        PersistentEffect),
      { type := "Guard", target := none, power := 1, precedence := 3, remaining := 2 },
      { type := "Curse", target := none, power := 1, precedence := 2, remaining := 2 }] :
      Bucket).length ≤
      (negateOnce
        [{ type := "Lucky", target := none, power := 1, precedence := 1, remaining := 2 },
         { type := "Guard", target := none, power := 1, precedence := 3, remaining := 2 },
         { type := "Curse", target := none, power := 1, precedence := 2, remaining := 2 }]
        { type := "Ability Negation", key := "an1", power := 2, duration := 0,
          activationChance := 100, precedence := 5, linkedTo := [],
          legacyTargetCode := none, multiHit := none,
          durabilityNegation := { auto := true, schedule := none } }).length + 2 := by
  refine ⟨by decide, ?_⟩
  have h := c7_ability_negation
    { type := "Ability Negation", key := "an1", power := 2, duration := 0,
      activationChance := 100, precedence := 5, linkedTo := [],
      legacyTargetCode := none, multiHit := none,
      durabilityNegation := { auto := true, schedule := none } }
    [{ type := "Lucky", target := none, power := 1, precedence := 1, remaining := 2 },
     { type := "Guard", target := none, power := 1, precedence := 3, remaining := 2 },
     { type := "Curse", target := none, power := 1, precedence := 2, remaining := 2 }]
    (by decide) (by decide)
  exact h.1

/-- C9 (amended): the greed short-circuit fires only when NO affordable
combo was selected: with bestCombo empty, a non-empty greedy set and a
draw below greedChance, the decision is a play of the greedy set
regardless of the scoring. -/
theorem c9_greed_short_circuit (stats : Stats) (sp hp maxHp : ℚ)
    (hand : List CardSnap) (cfg : AiConfig) (r : ℚ) (rng : Rng)
    (hcombo : (bestComboOf cfg.combos hand sp).1 = none)
    (hnonempty : (greedyPlaySet cfg hand sp).isEmpty = false)
    (hdraw : r < cfg.greedChance.getD (3 / 20)) :
    chooseEnemyAction stats sp hp maxHp hand cfg (r :: rng) =
      ({ action := "play", cards := greedyPlaySet cfg hand sp }, rng) := by
  simp only [chooseEnemyAction, hcombo, hnonempty, Option.isNone_none, Bool.not_false,
    Bool.true_and, Bool.and_true, if_true, Rng.next]
  rw [if_pos hdraw]

/-- Witness for c9_greed_short_circuit: no combos, one affordable card,
a 0 draw under the default greed chance 0.15. -/
theorem c9_greed_short_circuit_witness :
    chooseEnemyAction
      { attackPower := 10, supernaturalPower := 10, physicalPower := 10, durability := 10,
        vitality := 1, intelligence := 1, speed := 5, sp := 3, maxSp := 5, hp := 100 }
      5 100 100
      [{ id := "b", instanceId := "2", name := "B", spCost := 1, potency := 1,
         defense := 0, types := ["Physical"], abilities := [] }]
      { cardPriority := [], combos := [], spSkipThreshold := 3 / 10,
        defendHpThreshold := 1 / 2, weights := { play := 1, skip := 1, defend := 1 },
        greedChance := none }
      [0] =
      ({ action := "play",
         cards := [{ id := "b", instanceId := "2", name := "B", spCost := 1, potency := 1,
                     defense := 0, types := ["Physical"], abilities := [] }] }, []) := by
  have h := c9_greed_short_circuit
    { attackPower := 10, supernaturalPower := 10, physicalPower := 10, durability := 10,
      vitality := 1, intelligence := 1, speed := 5, sp := 3, maxSp := 5, hp := 100 }
    5 100 100
    [{ id := "b", instanceId := "2", name := "B", spCost := 1, potency := 1,
       defense := 0, types := ["Physical"], abilities := [] }]
    { cardPriority := [], combos := [], spSkipThreshold := 3 / 10,
      defendHpThreshold := 1 / 2, weights := { play := 1, skip := 1, defend := 1 },
      greedChance := none }
    0 [] (by decide) (by decide) (by decide)
  rw [h]
  have : greedyPlaySet
      { cardPriority := [], combos := [], spSkipThreshold := 3 / 10,
        defendHpThreshold := 1 / 2, weights := { play := 1, skip := 1, defend := 1 },
        greedChance := none }
      [{ id := "b", instanceId := "2", name := "B", spCost := 1, potency := 1,
         defense := 0, types := ["Physical"], abilities := [] }] 5 =
      [{ id := "b", instanceId := "2", name := "B", spCost := 1, potency := 1,
         defense := 0, types := ["Physical"], abilities := [] }] := by decide
  rw [this]

/-- C9 counterexample: the greedy play set (combo A plus nothing else
affordable) is non-empty and the greed draw 0 lies below the default
greedChance 0.15, yet the decision is skip, not a play of the greedy
set — because the combo's existence disables the greed short-circuit and
the scoring picks skip. -/
theorem c9_counterexample :
    ((greedyPlaySet c9Cfg c9Hand 1).isEmpty = false) ∧
    ((0 : ℚ) < 3 / 20) ∧
    (chooseEnemyAction
      { attackPower := 10, supernaturalPower := 10, physicalPower := 10, durability := 10,
        vitality := 1, intelligence := 1, speed := 5, sp := 3, maxSp := 5, hp := 100 }
      1 50 100 c9Hand c9Cfg [0]).1.action = "skip" := by
  refine ⟨by decide, by decide, by decide⟩

/-- C8 (amended): one field-resolution pass over a malformed snapshot (a
character-targeting entry missing its card payload, with turns left)
keeps the entry alive in the live list with its schedule state untouched
and adds no damage — but its turnsRemaining IS decremented by one,
floored at 0; a whole processFieldHits call on such an entry deals 0
damage, expires nothing, leaves the ledger alone and does not abort. -/
theorem c8_malformed_field_snapshot (mineKey : Side) (mine other : List FieldCard)
    (attackerBase defenderBase : Stats) (acc : FieldAcc) (fc : FieldCard)
    (hcard : fc.card = none)
    (hkind : fc.targetRef.kind = "character")
    (hturns : 0 < fc.turnsRemaining) :
    (processOneFieldCard mineKey mine other attackerBase defenderBase acc fc =
      { acc with updated := acc.updated ++
          [{ fc with turnsRemaining := max 0 (fc.turnsRemaining - 1) }] }) ∧
    (∀ (onf : OnField) (bkts : Buckets), onf.get mineKey = [fc] →
      processFieldHits mineKey onf attackerBase defenderBase bkts =
        { damageDone := 0,
          onField := onf.set mineKey
            [{ fc with turnsRemaining := max 0 (fc.turnsRemaining - 1) }],
          expired := [],
          buckets := bkts,
          prompts := [] }) := by
  have hresolve : resolveTargetRef mineKey mine other fc = (some fc.targetRef, []) := by
    unfold resolveTargetRef
    rw [if_pos (by simp [hkind])]
  have hstep : processOneFieldCard mineKey mine other attackerBase defenderBase acc fc =
      { acc with updated := acc.updated ++
        [{ fc with turnsRemaining := max 0 (fc.turnsRemaining - 1) }] } := by
    unfold processOneFieldCard
    rw [if_neg (not_le.mpr hturns), hresolve]
    simp only [hkind, hcard, Option.isNone_none, Bool.and_true, List.append_nil]
    rw [if_pos (by simp [hkind])]
  refine ⟨hstep, ?_⟩
  intro onf bkts hone
  have hstep2 : ∀ acc2 : FieldAcc,
      processOneFieldCard mineKey (onf.get mineKey) (onf.get mineKey.other)
        attackerBase defenderBase acc2 fc =
      { acc2 with updated := acc2.updated ++
        [{ fc with turnsRemaining := max 0 (fc.turnsRemaining - 1) }] } := by
    intro acc2
    have hresolve2 : resolveTargetRef mineKey (onf.get mineKey) (onf.get mineKey.other) fc =
        (some fc.targetRef, []) := by
      unfold resolveTargetRef
      rw [if_pos (by simp [hkind])]
    unfold processOneFieldCard
    rw [if_neg (not_le.mpr hturns), hresolve2]
    simp only [hkind, hcard, Option.isNone_none, Bool.and_true, List.append_nil]
    rw [if_pos (by simp [hkind])]
  rw [hone] at hstep2
  simp only [processFieldHits, hone, List.foldl_cons, List.foldl_nil]
  rw [hstep2]
  simp

/-- Witness for c8_malformed_field_snapshot: the malformed snapshot
(no card payload, character target, 2 turns left) alone on the enemy
field yields 0 damage, no expiry, unchanged ledger, and the entry kept
with one fewer turn remaining. -/
theorem c8_malformed_field_snapshot_witness :
    c8Malformed.card = none ∧
    c8Malformed.targetRef.kind = "character" ∧
    0 < c8Malformed.turnsRemaining ∧
    processFieldHits .enemy { player := [], enemy := [c8Malformed] } baseStats baseStats
        { player := [], enemy := [] } =
      { damageDone := 0,
        onField := OnField.set { player := [], enemy := [c8Malformed] } .enemy
          [{ c8Malformed with turnsRemaining := max 0 (c8Malformed.turnsRemaining - 1) }],
        expired := [],
        buckets := { player := [], enemy := [] },
        prompts := [] } := by
  refine ⟨rfl, rfl, by decide, ?_⟩
  exact (c8_malformed_field_snapshot .enemy [] [] baseStats baseStats
    { totalDamage := 0, updated := [], expiredMine := [],
      buckets := { player := [], enemy := [] }, prompts := [] }
    c8Malformed rfl rfl (by decide)).2
    { player := [], enemy := [c8Malformed] } { player := [], enemy := [] } rfl

/-- C8 counterexample: the claim says a malformed snapshot's
turnsRemaining is left unchanged; resolving the field with such a
snapshot at turnsRemaining 2 leaves it at 1, not 2. -/
theorem c8_counterexample :
    ((processFieldHits .enemy { player := [], enemy := [c8Malformed] }
      { attackPower := 10, supernaturalPower := 10, physicalPower := 10, durability := 10,
        vitality := 1, intelligence := 1, speed := 5, sp := 3, maxSp := 5, hp := 100 }
      { attackPower := 10, supernaturalPower := 10, physicalPower := 10, durability := 10,
        vitality := 1, intelligence := 1, speed := 5, sp := 3, maxSp := 5, hp := 100 }
      { player := [], enemy := [] }).onField.enemy.map
        (fun f => f.turnsRemaining) = [1]) ∧
    ((1 : ℚ) ≠ 2) := by
  refine ⟨by decide, by decide⟩

/-- C2 counterexample: the claim says the stored precedence is REPLACED
by the new activation's precedence; re-activating a (Guard, none) entry
of precedence 5 with a new precedence 3 leaves precedence 5 in the
ledger, not 3 (power and remaining are replaced). -/
theorem c2_counterexample :
    (bucketGet (upsertPersistentEffect
      [{ type := "Guard", target := none, power := 1, precedence := 5, remaining := 3 }]
      { type := "Guard", target := none, power := 7, precedence := 3, duration := 2 })
      "Guard").map (fun e => e.precedence) = some 5 ∧
    ¬ ((bucketGet (upsertPersistentEffect
      [{ type := "Guard", target := none, power := 1, precedence := 5, remaining := 3 }]
      { type := "Guard", target := none, power := 7, precedence := 3, duration := 2 })
      "Guard").map (fun e => e.precedence) = some 3) := by
  constructor
  · decide
  · decide

/-- One child-firing step either leaves the accumulator alone or only
rewrites its buckets. -/
theorem fieldChildStep_shape (mk : Side) (t : ℚ) (fc : FieldCard) (primary : Ability)
    (a : FieldAcc) (ab : Ability) :
    fieldChildStep mk t fc primary a ab = a ∨
    ∃ b : Buckets, fieldChildStep mk t fc primary a ab = { a with buckets := b } := by
  simp only [fieldChildStep]
  split
  · exact Or.inl rfl
  · split
    · exact Or.inl rfl
    · split
      · exact Or.inl rfl
      · exact Or.inr ⟨_, rfl⟩

/-- One child-firing step never changes the damage total. -/
theorem fieldChildStep_damage (mk : Side) (t : ℚ) (fc : FieldCard) (primary : Ability)
    (a : FieldAcc) (ab : Ability) :
    (fieldChildStep mk t fc primary a ab).totalDamage = a.totalDamage := by
  rcases fieldChildStep_shape mk t fc primary a ab with h | ⟨b, h⟩ <;> rw [h]

/-- The whole child-firing fold never changes the damage total. -/
theorem foldl_fieldChildStep_damage (mk : Side) (t : ℚ) (fc : FieldCard)
    (primary : Ability) (l : List Ability) (acc : FieldAcc) :
    (l.foldl (fieldChildStep mk t fc primary) acc).totalDamage = acc.totalDamage := by
  induction l generalizing acc with
  | nil => rfl
  | cons ab rest ih =>
    simp only [List.foldl_cons]
    rw [ih, fieldChildStep_damage]

/-- Child-ability firing never changes the damage total. -/
theorem fieldChildFire_damage (mk : Side) (t : ℚ) (fc : FieldCard) (acc : FieldAcc) :
    (fieldChildFire mk t fc acc).totalDamage = acc.totalDamage := by
  simp only [fieldChildFire]
  split
  · rfl
  · exact foldl_fieldChildStep_damage _ _ _ _ _ _

/-- Projection of an ite of accumulators. -/
theorem ite_totalDamage (c : Prop) [Decidable c] (x y : FieldAcc) :
    (if c then x else y).totalDamage = if c then x.totalDamage else y.totalDamage := by
  split <;> rfl

/-- One field card adds exactly its isolated damage slice to the total. -/
theorem processOneFieldCard_damage (mk : Side) (mine other : List FieldCard)
    (a d : Stats) (acc : FieldAcc) (fc : FieldCard) :
    (processOneFieldCard mk mine other a d acc fc).totalDamage =
      acc.totalDamage + fieldCardDamage mk mine other a d fc := by
  by_cases h1 : fc.turnsRemaining ≤ 0
  · simp [processOneFieldCard, fieldCardDamage, h1]
  · by_cases h2 : (match (resolveTargetRef mk mine other fc).1 with
      | some r => r.kind == "character"
      | none => false) = true
    · cases hcard : fc.card with
      | none =>
        simp [processOneFieldCard, fieldCardDamage, h1, h2, hcard]
      | some c =>
        simp [processOneFieldCard, fieldCardDamage, h1, h2, hcard,
          ite_totalDamage, fieldChildFire_damage]
    · cases hcard : fc.card with
      | none =>
        simp [processOneFieldCard, fieldCardDamage, h1, h2, hcard,
          ite_totalDamage, fieldChildFire_damage]
      | some c =>
        simp [processOneFieldCard, fieldCardDamage, h1, h2, hcard,
          ite_totalDamage, fieldChildFire_damage]

/-- The field fold's damage total is the sum of the per-card slices. -/
theorem foldl_processOneFieldCard_damage (mk : Side) (mine other : List FieldCard)
    (a d : Stats) (l : List FieldCard) (acc : FieldAcc) :
    (l.foldl (processOneFieldCard mk mine other a d) acc).totalDamage =
      acc.totalDamage + (l.map (fieldCardDamage mk mine other a d)).sum := by
  induction l generalizing acc with
  | nil => simp
  | cons fc rest ih =>
    simp only [List.foldl_cons, List.map_cons, List.sum_cons]
    rw [ih, processOneFieldCard_damage]
    ring

/-- C4 (amended): an active opposing Guard zeroes the contribution of a
played card that does not bypass it, but scheduled on-field hits are not
gated by Guard at all — the field damage of a tick is independent of the
ledger contents (so a Guard entry there changes nothing). -/
theorem c4_guard_vs_field
    (atkSide : Side) (atkTemp defTemp : Stats) (ctx : Ctx)
    (attackLinked : List (String × List ALEntry)) (defBuffDef : ℚ)
    (acc : ℚ × Rng) (card : CardSnap)
    (hguard : (ctx.get atkSide.other).guard.active = true)
    (hbypass : playedCardBypass (ctx.get atkSide) attackLinked card = false) :
    (playedDamageStep atkSide atkTemp defTemp ctx attackLinked defBuffDef acc card = acc) ∧
    (∀ (sideKey : Side) (onField : OnField) (a d : Stats) (b1 b2 : Buckets),
      (processFieldHits sideKey onField a d b1).damageDone =
      (processFieldHits sideKey onField a d b2).damageDone) := by
  constructor
  · simp only [playedDamageStep, hguard, hbypass, Bool.not_false, Bool.true_and]
    split <;> simp
  · intro sideKey onField a d b1 b2
    simp only [processFieldHits]
    rw [foldl_processOneFieldCard_damage, foldl_processOneFieldCard_damage]

/-- Witness for c4_guard_vs_field: a Physical card with no abilities
against a context whose defending side holds an active Guard. -/
theorem c4_guard_vs_field_witness :
    (({ player := SideCtx.fresh,
        enemy := { SideCtx.fresh with
          guard := { active := true, precedence := 1, duration := 1 } } } : Ctx).get
        Side.player.other).guard.active = true ∧
    playedDamageStep .player c1Attacker c1Defender
      { player := SideCtx.fresh,
        enemy := { SideCtx.fresh with
          guard := { active := true, precedence := 1, duration := 1 } } }
      [] 0 (0, []) c1Card = (0, []) := by
  refine ⟨by decide, ?_⟩
  exact (c4_guard_vs_field .player c1Attacker c1Defender
    { player := SideCtx.fresh,
      enemy := { SideCtx.fresh with
        guard := { active := true, precedence := 1, duration := 1 } } }
    [] 0 (0, []) c1Card (by decide) (by decide)).1

/-- C4 counterexample: the player skips while holding an active Guard
(remaining 2); the frozen enemy's non-bypassing on-field card (dnAuto
false, no DN turns) still deals 118 damage, dropping the player from 200
HP to 82 — a guarded side does take field damage this turn. -/
theorem c4_counterexample :
    bucketHas (loadBucketSide c4Input.activeEffectsPlayer) "Guard" = true ∧
    c4FieldCard.scheduleState.dnAuto = false ∧
    c4FieldCard.scheduleState.dnTurns = none ∧
    (playTurnCore c4Input).normalResp.map (fun r => r.playerHp) = some 82 ∧
    ((82 : ℚ) < 200) := by
  refine ⟨by decide, by decide, by decide, by decide, by decide⟩

/-- C5: evaluating the turn at the failing input — the enemy already
fields two cards and plays one multi-hit card — leaves FOUR enemy
FieldCards (the built card is pushed twice), breaching MAX_FIELD_SLOTS. -/
theorem c5_enemy_field_overflow :
    (playTurnCore c5Input).normalResp.map
      (fun r => (r.onField.enemy.length, r.onField.enemy.map (fun f => f.instanceId))) =
      some (4, ["f1", "f2", "e9", "e9"]) ∧
    MAX_FIELD_SLOTS < 4 := by
  refine ⟨by decide, by decide⟩

/-- After a Revive check, a side left at 0 or below cannot still hold a
Revive entry. -/
theorem reviveCheck_post (v hp : ℚ) (b : Bucket) :
    (reviveCheck v hp b).1 ≤ 0 → bucketHas (reviveCheck v hp b).2 "Revive" = false := by
  unfold reviveCheck
  split
  · next hcond =>
    split
    · next eff heff =>
      intro h
      exfalso
      have h1 := le_max_left (1 : ℚ) (jsFloor (v * 100 * (clamp eff.power 0 100 / 100)))
      simp only at h
      linarith
    · next heff =>
      intro _
      simp [bucketHas, heff]
  · next hcond =>
    intro h
    simp only at h
    cases hhas : bucketHas b "Revive"
    · rfl
    · exfalso
      apply hcond
      simp [hhas, h]

/-- The player field phase ends in an enemy-side Revive check. -/
theorem playerFieldPhase_revive (st : TurnState) :
    (playerFieldPhase st).enemyHp ≤ 0 →
    bucketHas (playerFieldPhase st).buckets.enemy "Revive" = false := by
  intro h
  exact reviveCheck_post _ _ _ h

/-- C3 (amended): through the player's half of the turn — field tick,
instant death, normal damage — every point that can leave the enemy at
0 HP or below is covered by a Revive check, so after the player's main
action an enemy at 0 or below holds no Revive entry. (The symmetric
statement for the enemy's normal damage against the player is FALSE; see
the counterexample.) -/
theorem c3_player_half_revive_checked (inp : TurnInput) (st st2 : TurnState)
    (h : playerMainAction inp (playerFieldPhase st) = .ok st2)
    (hhp : st2.enemyHp ≤ 0) :
    bucketHas st2.buckets.enemy "Revive" = false := by
  have hfield := playerFieldPhase_revive st
  simp only [playerMainAction] at h
  split at h
  · injection h with h2
    subst h2
    exact hfield hhp
  · split at h
    · split at h
      · exact Except.noConfusion h
      · injection h with h2
        subst h2
        exact reviveCheck_post _ _ _ hhp
    · split at h
      · injection h with h2
        subst h2
        exact hfield hhp
      · split at h
        · injection h with h2
          subst h2
          exact hfield hhp
        · injection h with h2
          subst h2
          exact hfield hhp

/-- Witness for c3_player_half_revive_checked: the player's Strike kills
the 100 HP enemy (no Revive present), and indeed no Revive remains. -/
theorem c3_player_half_revive_checked_witness :
    bucketHas ((playerMainAction c3wInp (playerFieldPhase c3wSt)).toOption.getD
      c3wSt).buckets.enemy "Revive" = false :=
  c3_player_half_revive_checked c3wInp c3wSt
    ((playerMainAction c3wInp (playerFieldPhase c3wSt)).toOption.getD c3wSt)
    (by rfl) (by decide)

/-- C3 counterexample: the player skips while holding Revive(power 50,
remaining 3); the enemy's played Claw deals 130 lethal damage, yet the
response reports 0 player HP with the Revive entry still in the ledger
(remaining 2 after the tick) — no Revive check follows the enemy's
normal damage, where the claim promised HP 50. -/
theorem c3_counterexample :
    (playTurnCore c3Input).normalResp.map
      (fun r => (r.playerHp, bucketHas r.activeEffects.player "Revive")) =
      some (0, true) ∧
    ((0 : ℚ) ≠ 50) := by
  refine ⟨by decide, by decide⟩

/-- C6 (amended): a frozen side's main action resolves nothing — the
state is returned untouched except for the frozen message (no SP change,
no ability resolution, no damage) — but the pile update still processes
the submitted play: at the concrete frozen input, the selected multi-hit
card is still scheduled onto the field while SP and enemy HP are
untouched. -/
theorem c6_frozen_main_action :
    (∀ (inp : TurnInput) (st : TurnState), sideFrozen st.buckets.player = true →
      playerMainAction inp st =
        .ok { st with message := "You are frozen and cannot act this turn." }) ∧
    ((playTurnCore c6Input).normalResp.map
      (fun r => (r.onField.player.map (fun f => f.instanceId), r.playerSp, r.enemyHp)) =
      some (["p1"], 5, 100)) := by
  constructor
  · intro inp st hfrozen
    simp only [playerMainAction, hfrozen, if_true]
  · decide

/-- Witness for c6_frozen_main_action: a frozen player's play request is
answered by the untouched state plus the frozen message. -/
theorem c6_frozen_main_action_witness :
    sideFrozen ({ c3wSt with buckets :=
      { player := [{ type := "Freeze", target := none, power := 0, precedence := 0,
                     remaining := 1 }], enemy := [] } } : TurnState).buckets.player = true ∧
    playerMainAction c3wInp
      { c3wSt with buckets :=
        { player := [{ type := "Freeze", target := none, power := 0, precedence := 0,
                       remaining := 1 }], enemy := [] } } =
      .ok { ({ c3wSt with buckets :=
        { player := [{ type := "Freeze", target := none, power := 0, precedence := 0,
                       remaining := 1 }], enemy := [] } } : TurnState) with
        message := "You are frozen and cannot act this turn." } := by
  refine ⟨by decide, ?_⟩
  exact (c6_frozen_main_action.1) c3wInp
    { c3wSt with buckets :=
      { player := [{ type := "Freeze", target := none, power := 0, precedence := 0,
                     remaining := 1 }], enemy := [] } } (by decide)

/-- C6 counterexample: the frozen player submits a play of one multi-hit
card; the claim says no FieldCard may be created from it, yet the
response fields exactly that card (while SP and the enemy's HP are
indeed untouched). -/
theorem c6_counterexample :
    sideFrozen (loadBucketSide c6Input.activeEffectsPlayer) = true ∧
    (playTurnCore c6Input).normalResp.map (fun r => r.onField.player.length) = some 1 ∧
    (1 : ℕ) ≠ 0 := by
  refine ⟨by decide, by decide, by decide⟩

/-- C10: every normal (non-seed, non-noop, non-rejected) turn response
reports vitals clamped at 0 — playerHp, playerSp, enemyHp and enemySp
are never negative. -/
theorem c10_vitals_nonneg (inp : TurnInput) (r : TurnResp)
    (h : playTurnCore inp = .normal r) :
    0 ≤ r.playerHp ∧ 0 ≤ r.playerSp ∧ 0 ≤ r.enemyHp ∧ 0 ≤ r.enemySp := by
  have hr : ∀ st : TurnState,
      0 ≤ (respondNormal st).playerHp ∧ 0 ≤ (respondNormal st).playerSp ∧
      0 ≤ (respondNormal st).enemyHp ∧ 0 ≤ (respondNormal st).enemySp := by
    intro st
    exact ⟨le_max_left _ _, le_max_left _ _, le_max_left _ _, le_max_left _ _⟩
  simp only [playTurnCore] at h
  split at h
  · exact TurnOutcome.noConfusion h
  · split at h
    · exact TurnOutcome.noConfusion h
    · split at h
      · exact TurnOutcome.noConfusion h
      · injection h with h2
        subst h2
        exact hr _

/-- Witness for c10_vitals_nonneg at a concrete skip turn. -/
theorem c10_vitals_nonneg_witness :
    0 ≤ ((playTurnCore c10Input).normalResp.getD respDefault).playerHp ∧
    0 ≤ ((playTurnCore c10Input).normalResp.getD respDefault).playerSp ∧
    0 ≤ ((playTurnCore c10Input).normalResp.getD respDefault).enemyHp ∧
    0 ≤ ((playTurnCore c10Input).normalResp.getD respDefault).enemySp :=
  c10_vitals_nonneg c10Input _ (by decide)

end CardGame
